import Mathlib

/-!
Verification of the embedded X11 protocol server of GuitarRackCraft
(`app/src/main/cpp/x11/X11NativeDisplay.cpp`).

The C++ protocol engine is shallowly embedded: the per-display resource
tables (`childWindows`, `windowSizes`, `windowPositions`, `unmappedWindows`,
pixmaps, atoms) become association lists and lists, the framebuffer (a
`std::vector<uint32_t>` indexed row-major) becomes a flat-index function
together with its recorded size, and each request handler of
`Impl::serverLoop` becomes a pure state-transition function returning the
updated state and the list of synthesized events.  Machine integers are
modelled as `Nat`/`Int` with explicit masks where the code truncates;
`memcpy` of 32-bit words on the (little-endian) target is modelled by
arithmetic byte extraction `v / 256 ^ k % 256`.
-/

namespace GuitarRackCraft

/-! ### Constants from X11Protocol.h -/

def kX11ConnectionAccepted : Nat := 1
def kX11Major : Nat := 11
def kX11Minor : Nat := 0
def kRootWindowId : Nat := 1
def kDefaultColormapId : Nat := 1
def kWhitePixel : Nat := 0xffffff
def kBlackPixel : Nat := 0x000000
def kDefaultVisualId : Nat := 0x21

/-! ### Association lists standing in for `std::unordered_map`

`lookupA` is `find`, `insertA` is `operator[]`/`insert` (replace the first
binding of the key, append if absent), `eraseA` is `erase`. -/

def lookupA {κ α : Type} [DecidableEq κ] : List (κ × α) → κ → Option α
  | [], _ => none
  | (k', v) :: t, k => if k' = k then some v else lookupA t k

def insertA {κ α : Type} [DecidableEq κ] : List (κ × α) → κ → α → List (κ × α)
  | [], k, v => [(k, v)]
  | (k', v') :: t, k, v => if k' = k then (k, v) :: t else (k', v') :: insertA t k v

def eraseA {κ α : Type} [DecidableEq κ] (l : List (κ × α)) (k : κ) : List (κ × α) :=
  l.filter (fun p => p.1 ≠ k)

theorem lookupA_insertA_self {κ α : Type} [DecidableEq κ]
    (l : List (κ × α)) (k : κ) (v : α) : lookupA (insertA l k v) k = some v := by
  induction l with
  | nil => simp [insertA, lookupA]
  | cons h t ih =>
    by_cases hk : h.1 = k
    · simp [insertA, hk, lookupA]
    · simp [insertA, hk, lookupA, ih]

theorem lookupA_insertA_ne {κ α : Type} [DecidableEq κ]
    (l : List (κ × α)) (k k' : κ) (v : α) (hne : k ≠ k') :
    lookupA (insertA l k v) k' = lookupA l k' := by
  induction l with
  | nil => simp [insertA, lookupA, hne]
  | cons h t ih =>
    by_cases hk : h.1 = k
    · simp [insertA, hk, lookupA, hne, hk ▸ hne]
    · simp only [insertA, hk, if_false, lookupA]
      by_cases hk' : h.1 = k'
      · simp [hk']
      · simp [hk', ih]

theorem insertA_lookup_eq {κ α : Type} [DecidableEq κ]
    (l : List (κ × α)) (k : κ) (v : α) (h : lookupA l k = some v) :
    insertA l k v = l := by
  induction l with
  | nil => simp [lookupA] at h
  | cons hd t ih =>
    by_cases hk : hd.1 = k
    · simp only [lookupA, hk, if_true, Option.some.injEq] at h
      simp only [insertA, hk, if_true]
      rw [← h, ← hk]
    · simp only [lookupA, hk, if_false] at h
      simp [insertA, hk, ih h]

theorem lookupA_eraseA_self {κ α : Type} [DecidableEq κ]
    (l : List (κ × α)) (k : κ) : lookupA (eraseA l k) k = none := by
  induction l with
  | nil => simp [eraseA, lookupA]
  | cons h t ih =>
    by_cases hk : h.1 = k
    · simpa [eraseA, List.filter_cons, hk] using ih
    · simpa [eraseA, List.filter_cons, hk, lookupA] using ih

theorem lookupA_eraseA_ne {κ α : Type} [DecidableEq κ]
    (l : List (κ × α)) (k k' : κ) (hne : k' ≠ k) :
    lookupA (eraseA l k) k' = lookupA l k' := by
  induction l with
  | nil => simp [eraseA, lookupA]
  | cons h t ih =>
    by_cases hk : h.1 = k
    · simpa [eraseA, List.filter_cons, hk, lookupA, Ne.symm hne] using ih
    · by_cases hk' : h.1 = k'
      · simp [eraseA, List.filter_cons, hk, lookupA, hk', hne]
      · simpa [eraseA, List.filter_cons, hk, lookupA, hk'] using ih

/-! ### Byte packing arithmetic

The framebuffer stores 32-bit pixel words; PutImage assembles them from
wire bytes with shifts and ors and forces the alpha byte with
`| 0xFF000000u`, GetImage reads them back bytewise (little-endian
`memcpy`).  The lemmas below convert those bit operations to plain
arithmetic so that `omega` can extract bytes. -/

theorem mul2_lor (x y : Nat) : 2 * x ||| 2 * y = 2 * (x ||| y) := by
  have h := Nat.lor_bit false x false y
  simpa [Nat.bit_val] using h

theorem pow_mul_lor (n x y : Nat) : 2 ^ n * x ||| 2 ^ n * y = 2 ^ n * (x ||| y) := by
  induction n with
  | zero => simp
  | succ k ih =>
    have h2 : 2 ^ (k + 1) = 2 * 2 ^ k := by ring
    rw [h2]
    calc 2 * 2 ^ k * x ||| 2 * 2 ^ k * y
        = 2 * (2 ^ k * x) ||| 2 * (2 ^ k * y) := by ring_nf
      _ = 2 * (2 ^ k * x ||| 2 ^ k * y) := mul2_lor _ _
      _ = 2 * (2 ^ k * (x ||| y)) := by rw [ih]
      _ = 2 * 2 ^ k * (x ||| y) := by ring

theorem lor_255_of_lt (a : Nat) (h : a < 256) : a ||| 255 = 255 := by
  interval_cases a <;> rfl

/-- Forcing the alpha byte: for a 32-bit word split as `2 ^ 24 * b3 + low`,
`| 0xFF000000` replaces the top byte by `0xFF` and keeps the low 24 bits. -/
theorem pack_or_alpha (b3 low : Nat) (hb3 : b3 < 256) (hlow : low < 2 ^ 24) :
    (2 ^ 24 * b3 + low) ||| 0xFF000000 = 0xFF000000 + low := by
  have h1 : 2 ^ 24 * b3 + low = 2 ^ 24 * b3 ||| low := Nat.mul_add_lt_is_or hlow b3
  have h2 : (0xFF000000 : Nat) = 2 ^ 24 * 255 := by norm_num
  have h3 : 2 ^ 24 * 255 + low = 2 ^ 24 * 255 ||| low := Nat.mul_add_lt_is_or hlow 255
  rw [h1, h2, Nat.lor_assoc, Nat.lor_comm low (2 ^ 24 * 255), ← Nat.lor_assoc,
    pow_mul_lor, lor_255_of_lt b3 hb3, ← h3]

/-- The MSB-first pixel parse `(a << 24) | (r << 16) | (g << 8) | b` of the
PutImage slow path, as plain arithmetic. -/
theorem packMSB_eq (a r g b : Nat) (hr : r < 256) (hg : g < 256) (hb : b < 256) :
    a <<< 24 ||| r <<< 16 ||| g <<< 8 ||| b
      = 2 ^ 24 * a + 2 ^ 16 * r + 2 ^ 8 * g + b := by
  rw [Nat.shiftLeft_eq, Nat.shiftLeft_eq, Nat.shiftLeft_eq]
  have h1 : 2 ^ 24 * a + 2 ^ 16 * r = 2 ^ 24 * a ||| 2 ^ 16 * r :=
    Nat.mul_add_lt_is_or (by omega) a
  have h2 : 2 ^ 16 * (2 ^ 8 * a + r) + 2 ^ 8 * g
      = 2 ^ 16 * (2 ^ 8 * a + r) ||| 2 ^ 8 * g :=
    Nat.mul_add_lt_is_or (by omega) _
  have h3 : 2 ^ 8 * (2 ^ 8 * (2 ^ 8 * a + r) + g) + b
      = 2 ^ 8 * (2 ^ 8 * (2 ^ 8 * a + r) + g) ||| b :=
    Nat.mul_add_lt_is_or (by omega) _
  have e1 : a * 2 ^ 24 = 2 ^ 24 * a := by ring
  have e2 : r * 2 ^ 16 = 2 ^ 16 * r := by ring
  have e3 : g * 2 ^ 8 = 2 ^ 8 * g := by ring
  rw [e1, e2, e3, ← h1]
  have e4 : 2 ^ 24 * a + 2 ^ 16 * r = 2 ^ 16 * (2 ^ 8 * a + r) := by ring
  rw [e4, ← h2]
  have e5 : 2 ^ 16 * (2 ^ 8 * a + r) + 2 ^ 8 * g
      = 2 ^ 8 * (2 ^ 8 * (2 ^ 8 * a + r) + g) := by ring
  rw [e5, ← h3]

/-- Flat-index inversion for the row-major framebuffer writes:
the column of index `c * b + a`. -/
theorem idx_emod (a b c : Int) (h : 0 ≤ a) (h2 : a < b) : (c * b + a) % b = a := by
  rw [add_comm, mul_comm, Int.add_mul_emod_self_left]
  exact Int.emod_eq_of_lt h h2

/-- Flat-index inversion: the row of index `c * b + a`. -/
theorem idx_ediv (a b c : Int) (h : 0 ≤ a) (h2 : a < b) : (c * b + a) / b = c := by
  rw [add_comm, mul_comm, Int.add_mul_ediv_left _ _ (by omega : b ≠ 0)]
  simp [Int.ediv_eq_zero_of_lt h h2]

/-! ### Server state (`X11NativeDisplay::Impl` resource tables) -/

/-- Entry of `windowPositions`: `struct WindowPos with int x, y; uint32_t parent`. -/
structure WindowPos where
  x : Int
  y : Int
  parent : Nat
deriving Repr, DecidableEq

/-- Entry of `pixmaps`: width, height and the flat pixel buffer
(`std::vector<uint32_t>`, modelled as an index function; sizes from
`read16` are nonnegative but kept as `Int` to match the `int` fields). -/
structure PixmapData where
  w : Int
  h : Int
  pixels : Int → Nat

/-- The protocol-thread resource tables of one display instance.
`framebuffer` is the flat BGRA pixel vector with its recorded size
`fbSize` (`framebuffer.size()`); `width`/`height` are the attached surface
dimensions; `uiScale` models the `float uiScale` field as a rational (it
is only ever multiplied with window sizes and truncated). -/
structure ServerState where
  childWindows : List Nat
  windowSizes : List (Nat × (Int × Int))
  windowPositions : List (Nat × WindowPos)
  unmappedWindows : List Nat
  windowEventMasks : List (Nat × Nat)
  pluginWidth : Int
  pluginHeight : Int
  originalChildW : Int
  originalChildH : Int
  width : Int
  height : Int
  fbSize : Int
  framebuffer : Int → Nat
  pixmaps : List (Nat × PixmapData)
  uiScale : ℚ

/-! ### `Impl::getAbsolutePos`: parent-chain walk with depth cap 32 -/

/-- Loop-exit test after `cur = it->second.parent`: stop at the top-level
plugin window `childWindows[0]`, at `kRootWindowId`, or at parent `0`. -/
def absPosStop (st : ServerState) (cur : Nat) : Bool :=
  (decide (st.childWindows ≠ []) && st.childWindows.head? == some cur)
    || cur == kRootWindowId || cur == 0

/-- Body of the `for (depth = 0; depth < 32; depth++)` walk of
`getAbsolutePos`; the fuel argument is the remaining depth budget. -/
def getAbsolutePosAux (st : ServerState) : Nat → Int → Int → Nat → Int × Int
  | 0, ax, ay, _ => (ax, ay)
  | d + 1, ax, ay, cur =>
    match lookupA st.windowPositions cur with
    | none => (ax, ay)
    | some p =>
      if absPosStop st p.parent then (ax + p.x, ay + p.y)
      else getAbsolutePosAux st d (ax + p.x) (ay + p.y) p.parent

/-- `Impl::getAbsolutePos`: sum of ancestor offsets up to the top-level
plugin window, walking at most 32 parent links. -/
def getAbsolutePos (st : ServerState) (wid : Nat) : Int × Int :=
  getAbsolutePosAux st 32 0 0 wid

/-- Number of loop iterations `getAbsolutePos` executes (each iteration is
one `windowPositions.find`), for the termination/resource claim. -/
def getAbsolutePosSteps (st : ServerState) : Nat → Nat → Nat
  | 0, _ => 0
  | d + 1, cur =>
    match lookupA st.windowPositions cur with
    | none => 0
    | some p =>
      if absPosStop st p.parent then 1
      else 1 + getAbsolutePosSteps st d p.parent

/-! ### `Impl::hitTestChildWindow` -/

structure HitResult where
  wid : Nat
  localX : Int
  localY : Int
deriving Repr, DecidableEq

/-- One candidate test of the reverse walk over `childWindows`: skip
hidden windows and windows without position/size entries, then test
containment against the absolute bounds. -/
def hitCandidate (st : ServerState) (x y : Int) (wid : Nat) : Option HitResult :=
  if wid ∈ st.unmappedWindows then none
  else
    match lookupA st.windowPositions wid, lookupA st.windowSizes wid with
    | some _, some sz =>
      let a := getAbsolutePos st wid
      if a.1 ≤ x ∧ x < a.1 + sz.1 ∧ a.2 ≤ y ∧ y < a.2 + sz.2 then
        some ⟨wid, x - a.1, y - a.2⟩
      else none
    | _, _ => none

/-- `Impl::hitTestChildWindow`: the loop runs indices `size-1 .. 1`
(skipping index 0, the top-level plugin window) and returns the first
mapped window containing the point; the default is the top-level window,
or the root when no window exists yet. -/
def hitTestChildWindow (st : ServerState) (x y : Int) : HitResult :=
  let topWin := match st.childWindows with
    | [] => kRootWindowId
    | t :: _ => t
  match ((st.childWindows.drop 1).reverse).findSome? (hitCandidate st x y) with
  | some r => r
  | none => ⟨topWin, x, y⟩

/-! ### PutImage / GetImage (`serverLoop` cases 72 and 73)

The C++ writes loop row-major over the destination rectangle; each flat
destination index `dstY * dW + dstX` with `0 ≤ dstX < dW` is written at
most once, so the loop is translated to a pixel-indexed function: the new
buffer maps an index to the parsed source pixel when the index decomposes
(uniquely, by euclidean div/mod) into a written cell, and to the old
contents otherwise. -/

def byteAt (ps : List Nat) (i : Nat) : Nat := ps.getD i 0

/-- Little-endian 32-bit word at byte offset `i` — the value obtained by
`memcpy`/`reinterpret_cast<const uint32_t*>` on the little-endian target. -/
def leWordAt (ps : List Nat) (i : Nat) : Nat :=
  byteAt ps i + 256 * byteAt ps (i + 1) + 65536 * byteAt ps (i + 2)
    + 16777216 * byteAt ps (i + 3)

/-- MSB-first parse of the PutImage slow path:
`pixel = (a << 24) | (r << 16) | (g << 8) | b`. -/
def msbWordAt (ps : List Nat) (i : Nat) : Nat :=
  byteAt ps i <<< 24 ||| byteAt ps (i + 1) <<< 16 ||| byteAt ps (i + 2) <<< 8
    ||| byteAt ps (i + 3)

def parsePixel (msb : Bool) (ps : List Nat) (i : Nat) : Nat :=
  if msb then msbWordAt ps i else leWordAt ps i

/-- Byte `k` of a 32-bit word as laid out in little-endian memory
(`memcpy` into the reply buffer). -/
def leByte (v : Nat) (k : Nat) : Nat := v / 256 ^ k % 256

/-- Scalar fallback of `swapRB_neon`:
`(p & 0xFF00FF00u) | ((p & 0xFFu) << 16) | ((p >> 16) & 0xFFu)`. -/
def swapRB (p : Nat) : Nat :=
  (p &&& 0xFF00FF00) ||| ((p &&& 0xFF) <<< 16) ||| ((p >>> 16) &&& 0xFF)

/-- Byte `k` written by the MSB-first slow path of GetImage. -/
def msbByte (v : Nat) : Nat → Nat
  | 0 => (v >>> 24) &&& 0xff
  | 1 => v &&& 0xff
  | 2 => (v >>> 8) &&& 0xff
  | _ => (v >>> 16) &&& 0xff

/-- A clip rectangle of the `childClip` list (absolute coordinates,
half-open on the right/bottom). -/
structure ClipRect where
  x1 : Int
  y1 : Int
  x2 : Int
  y2 : Int
deriving Repr, DecidableEq

def clippedAt (clip : List ClipRect) (dx dy : Int) : Bool :=
  clip.any fun cr =>
    decide (cr.x1 ≤ dx) && decide (dx < cr.x2)
      && decide (cr.y1 ≤ dy) && decide (dy < cr.y2)

/-- Collection of mapped child windows of the drawable, clipped out of
parent writes (`childClip` in the PutImage handler). -/
def childClipOf (st : ServerState) (drawable : Nat) : List ClipRect :=
  st.windowPositions.filterMap fun p =>
    if p.2.parent = drawable ∧ p.1 ∉ st.unmappedWindows then
      match lookupA st.windowSizes p.1 with
      | some sz =>
        let cabs := getAbsolutePos st p.1
        some ⟨cabs.1, cabs.2, cabs.1 + sz.1, cabs.2 + sz.2⟩
      | none => none
    else none

/-- The pixel writes of one PutImage into a destination buffer of
dimensions `dW × dH`, with the three paths of the handler: fast
(fully covered, LSB, no clip), fast with per-pixel clip test, and the
bounds-checked slow path. -/
def putImageWrite (msb : Bool) (old : Int → Nat) (dW dH x y w h : Int)
    (pixels : List Nat) (clip : List ClipRect) : Int → Nat :=
  let pixelDataLen : Int := pixels.length
  let fullyCovered := 0 ≤ x ∧ 0 ≤ y ∧ x + w ≤ dW ∧ y + h ≤ dH
    ∧ w * h * 4 ≤ pixelDataLen
  fun i =>
    if 0 < dW ∧ 0 ≤ i then
      let dstX := i % dW
      let dstY := i / dW
      let row := dstY - y
      let col := dstX - x
      let srcIdx := (row * w + col) * 4
      let inRegion := 0 ≤ row ∧ row < h ∧ 0 ≤ col ∧ col < w
      if fullyCovered ∧ msb = false ∧ clip = [] then
        if inRegion then leWordAt pixels srcIdx.toNat ||| 0xFF000000 else old i
      else if fullyCovered ∧ msb = false then
        if inRegion ∧ clippedAt clip dstX dstY = false then
          leWordAt pixels srcIdx.toNat ||| 0xFF000000
        else old i
      else
        if inRegion ∧ 0 ≤ dstY ∧ dstY < dH ∧ clippedAt clip dstX dstY = false
            ∧ srcIdx + 3 < pixelDataLen then
          parsePixel msb pixels srcIdx.toNat ||| 0xFF000000
        else old i
    else old i

/-- Framebuffer width used by the image handlers:
`pluginWidth > 0 ? pluginWidth : width`. -/
def fbW (st : ServerState) : Int := if st.pluginWidth > 0 then st.pluginWidth else st.width

def fbH (st : ServerState) : Int := if st.pluginHeight > 0 then st.pluginHeight else st.height

/-- The PutImage handler (`case PutImage` of `serverLoop`): dimension
sanity checks, window/pixmap target resolution, unmapped suppression,
ancestor-offset adjustment, child clipping, then the buffer write. -/
def putImageStep (st : ServerState) (msb : Bool) (drawable : Nat)
    (w h x y : Int) (pixels : List Nat) : ServerState :=
  let pixelDataLen : Int := pixels.length
  if w > 0 ∧ h > 0 ∧ w ≤ 4096 ∧ h ≤ 4096 ∧ pixelDataLen > 0 then
    let isWindow0 := drawable ∈ st.childWindows
    let isWindow1 := isWindow0 ∨ drawable = kRootWindowId
    let isTopLevel := (¬ isWindow0 ∧ drawable = kRootWindowId)
      ∨ (isWindow1 ∧ st.childWindows.head? = some drawable)
    let isWindow := isWindow1 ∧ ¬ (¬ isTopLevel ∧ drawable ∈ st.unmappedWindows)
    let xy := if isWindow ∧ ¬ isTopLevel then
        let a := getAbsolutePos st drawable
        (x + a.1, y + a.2)
      else (x, y)
    let clip := if isWindow then childClipOf st drawable else []
    if isWindow ∧ st.fbSize = fbW st * fbH st then
      { st with framebuffer :=
          putImageWrite msb st.framebuffer (fbW st) (fbH st) xy.1 xy.2 w h pixels clip }
    else
      match lookupA st.pixmaps drawable with
      | some pd =>
        let pd2 : PixmapData :=
          { pd with pixels :=
              putImageWrite msb pd.pixels pd.w pd.h xy.1 xy.2 w h pixels clip }
        { st with pixmaps := insertA st.pixmaps drawable pd2 }
      | none => st
  else st

/-- Source resolution of the GetImage handler: the framebuffer for any
window id (or the root) when nonempty, otherwise a pixmap; both store the
wire format already, so `useShadow` is true in either case. -/
def getImageResolve (st : ServerState) (drawable : Nat) :
    Option ((Int → Nat) × Int × Int × Bool) :=
  let isWindow := drawable ∈ st.childWindows ∨ drawable = kRootWindowId
  if isWindow ∧ st.fbSize ≠ 0 then
    some (st.framebuffer, fbW st, fbH st, true)
  else
    match lookupA st.pixmaps drawable with
    | some pd => some (pd.pixels, pd.w, pd.h, true)
    | none => none

/-- Byte `j` of the pixel-data area of the GetImage reply (`case 73` of
`serverLoop`), with the four copy paths of the handler. -/
def getImageByte (st : ServerState) (msb : Bool) (drawable : Nat)
    (gx gy gw gh : Int) (j : Nat) : Nat :=
  match getImageResolve st drawable with
  | none => 0
  | some (src, srcW, srcH, useShadow) =>
    if gw > 0 ∧ gh > 0 then
      let p : Int := (j : Int) / 4
      let k : Nat := j % 4
      let row := p / gw
      let col := p % gw
      let srcVal := src ((gy + row) * srcW + (gx + col))
      let fullyCovered := 0 ≤ gx ∧ 0 ≤ gy ∧ gx + gw ≤ srcW ∧ gy + gh ≤ srcH
      if fullyCovered ∧ useShadow = true then
        leByte srcVal k
      else if fullyCovered ∧ msb = false then
        leByte (swapRB srcVal) k
      else if msb = false then
        if max 0 (-gy) ≤ row ∧ row < min gh (srcH - gy)
            ∧ max 0 (-gx) ≤ col ∧ col < min gw (srcW - gx) then
          if useShadow = true then leByte srcVal k else leByte (swapRB srcVal) k
        else 0
      else
        if 0 ≤ gx + col ∧ gx + col < srcW ∧ 0 ≤ gy + row ∧ gy + row < srcH then
          msbByte srcVal k
        else 0
    else 0

/-! ### Window lifecycle and ConfigureWindow (`serverLoop` cases 1, 4, 12) -/

/-- Events synthesized by the handlers, with the fields the code fills in
(window id, width, height). -/
inductive XEvent where
  | expose (wid : Nat) (w h : Int)
  | configureNotify (wid : Nat) (w h : Int)
deriving Repr, DecidableEq

/-- The CreateWindow handler: registers geometry, parent and offset,
marks the window unmapped, fixes the plugin/framebuffer size on the first
window with positive size, and emits an eager Expose. -/
def createWindowStep (st : ServerState) (wid parentWid : Nat)
    (winX winY winWidth winHeight : Int) : ServerState × List XEvent :=
  let st1 := { st with
    windowSizes := insertA st.windowSizes wid (winWidth, winHeight)
    windowPositions := insertA st.windowPositions wid ⟨winX, winY, parentWid⟩
    childWindows := st.childWindows ++ [wid]
    unmappedWindows := st.unmappedWindows ++ [wid] }
  let st2 :=
    if st1.pluginWidth = 0 ∧ winWidth > 0 ∧ winHeight > 0 then
      { st1 with
        originalChildW := winWidth
        originalChildH := winHeight
        pluginWidth := winWidth
        pluginHeight := winHeight
        fbSize := winWidth * winHeight
        framebuffer := fun _ => 0xFF302020 }
    else st1
  (st2, [XEvent.expose wid winWidth winHeight])

/-- The DestroyWindow handler (`case 4`): erases the window from
`windowEventMasks`, `windowSizes`, `windowPositions`, `unmappedWindows`
and `childWindows` — and nothing else. -/
def destroyWindowStep (st : ServerState) (window : Nat) : ServerState :=
  { st with
    windowEventMasks := eraseA st.windowEventMasks window
    windowSizes := eraseA st.windowSizes window
    windowPositions := eraseA st.windowPositions window
    unmappedWindows := st.unmappedWindows.filter (fun w => w ≠ window)
    childWindows := st.childWindows.filter (fun w => w ≠ window) }

/-- A ConfigureWindow request: the optional fields model the x/y/w/h bits
of the value mask (a present field is a set bit, its value read from the
request body in bit order). -/
structure CfgReq where
  wid : Nat
  newX? : Option Int
  newY? : Option Int
  newW? : Option Int
  newH? : Option Int
deriving Repr, DecidableEq

/-- The x-update of ConfigureWindow: write only when the stored value
actually differs, reporting whether it changed. -/
def cfgApplyX (st : ServerState) (wid : Nat) : Option Int → ServerState × Bool
  | none => (st, false)
  | some nx =>
    match lookupA st.windowPositions wid with
    | none => (st, false)
    | some p =>
      if p.x = nx then (st, false)
      else ({ st with windowPositions :=
                insertA st.windowPositions wid { p with x := nx } }, true)

def cfgApplyY (st : ServerState) (wid : Nat) : Option Int → ServerState × Bool
  | none => (st, false)
  | some ny =>
    match lookupA st.windowPositions wid with
    | none => (st, false)
    | some p =>
      if p.y = ny then (st, false)
      else ({ st with windowPositions :=
                insertA st.windowPositions wid { p with y := ny } }, true)

/-- Framebuffer resize on a top-level size change: `resize()` preserves
the existing flat contents and fills newly added space with the
background. -/
def resizeFb (st : ServerState) (w h : Int) : ServerState :=
  { st with
    pluginWidth := w
    pluginHeight := h
    framebuffer := fun i => if 0 ≤ i ∧ i < st.fbSize then st.framebuffer i else 0xFF302020
    fbSize := w * h }

/-- Expose of the top-level window after a position change
(`posChanged && exposeTopWid && exposeTopW > 0 && exposeTopH > 0`). -/
def exposeTopEvents : Option (Nat × Int × Int) → List XEvent
  | some (t, tw, th) =>
    if t ≠ 0 ∧ tw > 0 ∧ th > 0 then [XEvent.expose t tw th] else []
  | none => []

/-- The width/height part of the ConfigureWindow handler: the
`isChildWin && (newW > 0 || newH > 0)` guard, the `sizeChanged`
suppression (comparing against the tracked plugin size for the top-level
window and against the stored size otherwise), the unconditional store of
the final size, the framebuffer resize, and the ConfigureNotify+Expose
pair. -/
def cfgSizePart (st2 : ServerState) (req : CfgReq) : ServerState × List XEvent :=
  let newW : Int := req.newW?.getD (-1)
  let newH : Int := req.newH?.getD (-1)
  let isChildWin := req.wid ∈ st2.childWindows
  if isChildWin ∧ (newW > 0 ∨ newH > 0) then
    let stored := (lookupA st2.windowSizes req.wid).getD (0, 0)
    let finalW := if newW > 0 then newW else stored.1
    let finalH := if newH > 0 then newH else stored.2
    let isTopLevel := st2.childWindows.head? = some req.wid
    let sizeChanged :=
      if isTopLevel then finalW ≠ st2.pluginWidth ∨ finalH ≠ st2.pluginHeight
      else finalW ≠ stored.1 ∨ finalH ≠ stored.2
    let st3 := { st2 with windowSizes := insertA st2.windowSizes req.wid (finalW, finalH) }
    let st4 := if sizeChanged ∧ isTopLevel then resizeFb st3 finalW finalH else st3
    let evs := if sizeChanged then
        [XEvent.configureNotify req.wid finalW finalH, XEvent.expose req.wid finalW finalH]
      else []
    (st4, evs)
  else
    (st2, [])

/-- The ConfigureWindow handler (`case 12`): position updates with the
top-level Expose on movement, then the size part, with the events in the
order the code sends them (ConfigureNotify, Expose of the configured
window, Expose of the top-level window after a move). -/
def configureWindowStep (st : ServerState) (req : CfgReq) : ServerState × List XEvent :=
  let r1 := cfgApplyX st req.wid req.newX?
  let r2 := cfgApplyY r1.1 req.wid req.newY?
  let st2 := r2.1
  let posChanged := r1.2 || r2.2
  let exposeTop : Option (Nat × Int × Int) :=
    if posChanged then
      match st2.childWindows with
      | [] => none
      | t :: _ =>
        match lookupA st2.windowSizes t with
        | some sz => some (t, sz.1, sz.2)
        | none => some (t, 0, 0)
    else none
  let rs := cfgSizePart st2 req
  (rs.1, rs.2 ++ exposeTopEvents exposeTop)

/-! ### GetGeometry (`serverLoop` case 14)

The `(int)(originalChildW * uiScale)` float truncation is modelled as the
rational floor (both factors are nonnegative in every reachable state). -/

def getGeometryStep (st : ServerState) (drawable : Nat) : Int × Int × Int × Int :=
  let wh : Int × Int :=
    match lookupA st.windowSizes drawable with
    | some sz => (sz.1, sz.2)
    | none =>
      if drawable = kRootWindowId ∧ st.originalChildW > 0 then
        let gw0 : Int := ⌊(st.originalChildW : ℚ) * st.uiScale⌋
        let gh0 : Int := ⌊(st.originalChildH : ℚ) * st.uiScale⌋
        (if gw0 < 1 then 1 else gw0, if gh0 < 1 then 1 else gh0)
      else (st.width, st.height)
  let xy : Int × Int :=
    match lookupA st.windowPositions drawable with
    | some p => (p.x, p.y)
    | none => (0, 0)
  (xy.1, xy.2, wh.1, wh.2)

/-! ### Atom table (`serverLoop` cases 16 and 17) -/

structure AtomState where
  atomNameToId : List (String × Nat)
  atomIdToName : List (Nat × String)
  nextAtomId : Nat
deriving Repr, DecidableEq

def emptyAtomState : AtomState := ⟨[], [], 1⟩

/-- Name parsing of the InternAtom handler: the name is used only when
`0 < nameLen ≤ 256`, otherwise the empty string. -/
def normalizeAtomName (raw : String) : String :=
  if 0 < raw.length ∧ raw.length ≤ 256 then raw else ""

/-- The InternAtom handler: existing names return their id; a new
nonempty name is assigned `nextAtomId` (post-incremented) unless
`only_if_exists` is set; everything else returns atom 0 (None). -/
def internAtomStep (st : AtomState) (onlyIfExists : Bool) (raw : String) :
    AtomState × Nat :=
  let name := normalizeAtomName raw
  match lookupA st.atomNameToId name with
  | some id => (st, id)
  | none =>
    if onlyIfExists = false ∧ name ≠ "" then
      ({ atomNameToId := insertA st.atomNameToId name st.nextAtomId
         atomIdToName := insertA st.atomIdToName st.nextAtomId name
         nextAtomId := st.nextAtomId + 1 }, st.nextAtomId)
    else (st, 0)

/-- The GetAtomName handler: reverse lookup, empty string when unknown. -/
def getAtomNameStep (st : AtomState) (id : Nat) : String :=
  (lookupA st.atomIdToName id).getD ""

/-! ### Connection setup reply (`Impl::sendConnectionReply`) -/

/-- Byte-order negotiation from the first byte of the 12-byte connection
request: `msbFirst_ = (req[0] == 0x42)`. -/
def negotiateByteOrder (firstByte : Nat) : Bool := firstByte == 0x42

/-- The two bytes written by `Impl::write16`
(`(val >> 8) & 0xff` / `val & 0xff` in negotiated order). -/
def write16 (msb : Bool) (v : Nat) : List Nat :=
  if msb then [(v >>> 8) &&& 0xff, v &&& 0xff]
  else [v &&& 0xff, (v >>> 8) &&& 0xff]

/-- The four bytes written by `Impl::write32`. -/
def write32 (msb : Bool) (v : Nat) : List Nat :=
  if msb then
    [(v >>> 24) &&& 0xff, (v >>> 16) &&& 0xff, (v >>> 8) &&& 0xff, v &&& 0xff]
  else
    [v &&& 0xff, (v >>> 8) &&& 0xff, (v >>> 16) &&& 0xff, (v >>> 24) &&& 0xff]

/-- The 120-byte connection-accepted message assembled by
`sendConnectionReply`, in the exact order the code fills `body` (header,
fixed setup prefix, screen/format counts, pixmap format, root window
descriptor, depth, TrueColor visual). `width`/`height` are the attached
surface dimensions (cast to `uint16_t`, hence the `% 65536`). -/
def connectionReply (msb : Bool) (width height : Nat) : List Nat :=
  [kX11ConnectionAccepted, 0]
    ++ write16 msb kX11Major ++ write16 msb kX11Minor ++ write16 msb 28
    ++ write32 msb 0 ++ write32 msb 0x00200000 ++ write32 msb 0x001FFFFF
    ++ write32 msb 256 ++ write16 msb 0
    ++ write16 msb 32767
    ++ [1, 1, if msb then 1 else 0, if msb then 1 else 0, 8, 8, 8, 255, 0, 0, 0, 0]
    ++ [24, 32] ++ write16 msb 32 ++ [0, 0, 0, 0]
    ++ write32 msb kRootWindowId ++ write32 msb kDefaultColormapId
    ++ write32 msb kWhitePixel ++ write32 msb kBlackPixel ++ write32 msb 0
    ++ write16 msb (width % 65536) ++ write16 msb (height % 65536)
    ++ write16 msb (width * 254 / 100 % 65536) ++ write16 msb (height * 254 / 100 % 65536)
    ++ write16 msb 0 ++ write16 msb 0 ++ write32 msb kDefaultVisualId ++ [0, 0, 24, 1]
    ++ [24, 0] ++ write16 msb 1 ++ [0, 0, 0, 0]
    ++ write32 msb kDefaultVisualId ++ [4, 32] ++ write16 msb 256
    ++ write32 msb 0xff0000 ++ write32 msb 0x00ff00 ++ write32 msb 0x0000ff
    ++ [0, 0, 0, 0]

/-- Big/little-endian encoding by the spec words: "MSB first" writes the
most significant byte first. Used only to compare against the
`write16`/`write32` bit fiddling of the source. -/
def encode16 (msb : Bool) (v : Nat) : List Nat :=
  if msb then [v / 256 % 256, v % 256] else [v % 256, v / 256 % 256]

def encode32 (msb : Bool) (v : Nat) : List Nat :=
  if msb then [v / 16777216 % 256, v / 65536 % 256, v / 256 % 256, v % 256]
  else [v % 256, v / 256 % 256, v / 65536 % 256, v / 16777216 % 256]

/-- The same 120-byte reply with every multi-byte field spelled out in the
declared byte order (the refinement target for C5). -/
def connectionReplyOrdered (msb : Bool) (width height : Nat) : List Nat :=
  [kX11ConnectionAccepted, 0]
    ++ encode16 msb kX11Major ++ encode16 msb kX11Minor ++ encode16 msb 28
    ++ encode32 msb 0 ++ encode32 msb 0x00200000 ++ encode32 msb 0x001FFFFF
    ++ encode32 msb 256 ++ encode16 msb 0
    ++ encode16 msb 32767
    ++ [1, 1, if msb then 1 else 0, if msb then 1 else 0, 8, 8, 8, 255, 0, 0, 0, 0]
    ++ [24, 32] ++ encode16 msb 32 ++ [0, 0, 0, 0]
    ++ encode32 msb kRootWindowId ++ encode32 msb kDefaultColormapId
    ++ encode32 msb kWhitePixel ++ encode32 msb kBlackPixel ++ encode32 msb 0
    ++ encode16 msb (width % 65536) ++ encode16 msb (height % 65536)
    ++ encode16 msb (width * 254 / 100 % 65536) ++ encode16 msb (height * 254 / 100 % 65536)
    ++ encode16 msb 0 ++ encode16 msb 0 ++ encode32 msb kDefaultVisualId ++ [0, 0, 24, 1]
    ++ [24, 0] ++ encode16 msb 1 ++ [0, 0, 0, 0]
    ++ encode32 msb kDefaultVisualId ++ [4, 32] ++ encode16 msb 256
    ++ encode32 msb 0xff0000 ++ encode32 msb 0x00ff00 ++ encode32 msb 0x0000ff
    ++ [0, 0, 0, 0]

/-! ### Request framing (`serverLoop` body reads, for C8) -/

/-- Total bytes the PutImage path consumes from the stream for one
request: 4 header + 20 fixed body + the pixel payload, which is read (and
on invalid dimensions read-and-discarded) whenever it is nonzero. -/
def putImageConsumed (length : Nat) (w h : Int) : Nat :=
  let pixelDataLen : Nat := if 6 ≤ length then length * 4 - 24 else 0
  if w > 0 ∧ h > 0 ∧ w ≤ 4096 ∧ h ≤ 4096 ∧ pixelDataLen > 0 then
    4 + 20 + pixelDataLen
  else if pixelDataLen > 0 then
    4 + 20 + pixelDataLen
  else
    4 + 20

/-- Opcodes whose body is read by the generic pre-switch read (every
opcode except PutImage (72) and the self-reading handlers 2, 4 and 38). -/
def genericBodyRead (opcode : Nat) : Prop :=
  opcode ≠ 72 ∧ opcode ≠ 2 ∧ opcode ≠ 4 ∧ opcode ≠ 38

instance (opcode : Nat) : Decidable (genericBodyRead opcode) := by
  unfold genericBodyRead; infer_instance

/-- Total bytes consumed by the generic body read: the remaining
`(length-1)*4` body bytes, capped at 65536
(`if (extra > 65536) extra = 65536`). -/
def genericConsumed (length : Nat) : Nat :=
  if length > 0 then
    let extra := (length - 1) * 4
    let extra2 := if extra > 65536 then 65536 else extra
    4 + extra2
  else 4

/-! ### Detach during plugin-UI creation (`signalDetach`, for C9) -/

/-- The display-state phases of `DisplayState.h`. -/
inductive Phase where
  | none
  | attached
  | creating
  | ready
  | destroying
deriving Repr, DecidableEq

/-- Modelled from the spec: `isCreatingPluginUIForDisplay` — its
definition is not in the sources (only the declaration in
`PluginUIGuard.h` and its callers are); per §4.8 it reports whether the
display-state record for this display number is in the `Creating` phase. -/
def isCreatingPluginUIForDisplay (phase : Phase) : Bool :=
  phase == Phase.creating

/-- The teardown-relevant flags of `Impl` touched by `signalDetach`. -/
structure DetachFlags where
  closingGracefully : Bool
  detachDeferred : Bool
deriving Repr, DecidableEq

/-- Teardown actions `signalDetach` could perform; the handler only ever
records the graceful-closing mark (socket closes and thread joins happen
in `detachSurface`, after `signalDetach` reports not-deferred). -/
inductive TeardownAction where
  | markClosingGracefully
deriving Repr, DecidableEq

/-- `X11NativeDisplay::signalDetach`: defer while plugin creation is in
progress, otherwise mark graceful teardown (once). Returns whether the
detach was deferred, the new flags, and the actions performed. -/
def signalDetach (phase : Phase) (f : DetachFlags) :
    Bool × DetachFlags × List TeardownAction :=
  if isCreatingPluginUIForDisplay phase then
    (true, { f with detachDeferred := true }, [])
  else if f.closingGracefully then
    (false, f, [])
  else
    (false, { f with closingGracefully := true }, [TeardownAction.markClosingGracefully])

/-! ### Concrete states used by witnesses and counterexamples -/

/-- Resource tables right after `attachSurface` on an 800×600 surface:
empty tables, background-filled framebuffer, default UI scale. -/
def initState : ServerState where
  childWindows := []
  windowSizes := []
  windowPositions := []
  unmappedWindows := []
  windowEventMasks := []
  pluginWidth := 0
  pluginHeight := 0
  originalChildW := 0
  originalChildH := 0
  width := 800
  height := 600
  fbSize := 800 * 600
  framebuffer := fun _ => 0xFF302020
  pixmaps := []
  uiScale := 1

/-- A window table whose parent links form a 2-cycle (5 ↔ 6), for the
termination claim about `getAbsolutePos`. -/
def cycState : ServerState :=
  { initState with
    windowPositions := [(5, ⟨1, 2, 6⟩), (6, ⟨3, 4, 5⟩)] }

/-! ### C10 — termination of the ancestor-offset walk -/

theorem getAbsolutePosSteps_le (st : ServerState) :
    ∀ (d cur : Nat), getAbsolutePosSteps st d cur ≤ d := by
  intro d
  induction d with
  | zero => intro cur; simp [getAbsolutePosSteps]
  | succ k ih =>
    intro cur
    unfold getAbsolutePosSteps
    cases h : lookupA st.windowPositions cur with
    | none => simp
    | some p =>
      show (if absPosStop st p.parent = true then 1
        else 1 + getAbsolutePosSteps st k p.parent) ≤ k + 1
      by_cases hs : absPosStop st p.parent = true
      · simp [hs]
      · rw [if_neg hs]
        have := ih p.parent
        omega

/-- C10: the parent-chain walk of `getAbsolutePos` terminates on every
window table, including cyclic ones: it performs at most 32 iterations,
returns `(0,0)` immediately for a window with no position entry, and
stops after a single iteration when the parent is the top-level plugin
window, the root window id, or 0. -/
theorem getAbsolutePos_terminates :
    ∀ (st : ServerState) (wid : Nat),
      getAbsolutePosSteps st 32 wid ≤ 32 ∧
      (lookupA st.windowPositions wid = none → getAbsolutePos st wid = (0, 0)) ∧
      (∀ p, lookupA st.windowPositions wid = some p → absPosStop st p.parent = true →
        getAbsolutePosSteps st 32 wid = 1 ∧ getAbsolutePos st wid = (p.x, p.y)) := by
  intro st wid
  refine ⟨getAbsolutePosSteps_le st 32 wid, ?_, ?_⟩
  · intro h
    simp [getAbsolutePos, getAbsolutePosAux, h]
  · intro p hp hs
    constructor
    · simp [getAbsolutePosSteps, hp, hs]
    · simp [getAbsolutePos, getAbsolutePosAux, hp, hs]

theorem getAbsolutePos_terminates_witness :
    getAbsolutePosSteps cycState 32 5 ≤ 32 ∧
    getAbsolutePosSteps cycState 32 5 = 32 ∧
    getAbsolutePos cycState 7 = (0, 0) :=
  ⟨(getAbsolutePos_terminates cycState 5).1, by decide,
    (getAbsolutePos_terminates cycState 7).2.1 (by decide)⟩

/-! ### C9 — detach during plugin-UI creation is deferred -/

/-- C9: while plugin-UI creation is in progress for the display (phase
`Creating`), `signalDetach` reports the detach as deferred, sets the
deferred flag, leaves the graceful-closing state untouched and performs
no teardown action at all. -/
theorem signalDetach_defers_during_creating :
    ∀ (f : DetachFlags) (phase : Phase), phase = Phase.creating →
      signalDetach phase f = (true, { f with detachDeferred := true }, []) ∧
      (signalDetach phase f).2.1.closingGracefully = f.closingGracefully ∧
      (signalDetach phase f).2.2 = [] := by
  intro f phase h
  subst h
  refine ⟨rfl, rfl, rfl⟩

theorem signalDetach_defers_during_creating_witness :
    signalDetach Phase.creating ⟨false, false⟩ = (true, ⟨false, true⟩, []) :=
  (signalDetach_defers_during_creating ⟨false, false⟩ Phase.creating rfl).1

/-! ### C8 — oversized-payload discard and the 65536-byte cap -/

/-- C8 (amended): a PutImage request of any dimensions — oversized ones
included — consumes exactly its declared `4 * length` bytes, keeping the
stream aligned; the generic body read stays aligned exactly as long as
the body fits the 65536-byte cap, and for a larger body it consumes only
65540 bytes of the request, leaving the remainder in the stream. -/
theorem oversized_payload_framing :
    (∀ (length : Nat) (w h : Int), 6 ≤ length →
      putImageConsumed length w h = 4 * length) ∧
    (∀ (opcode length : Nat), genericBodyRead opcode → 0 < length →
      ((length - 1) * 4 ≤ 65536 → genericConsumed length = 4 * length) ∧
      (65536 < (length - 1) * 4 →
        genericConsumed length = 65540 ∧ genericConsumed length < 4 * length)) := by
  constructor
  · intro length w h hlen
    have hpd : (if 6 ≤ length then length * 4 - 24 else 0) = length * 4 - 24 := by
      simp [hlen]
    simp only [putImageConsumed, hpd]
    by_cases hv : w > 0 ∧ h > 0 ∧ w ≤ 4096 ∧ h ≤ 4096 ∧ length * 4 - 24 > 0
    · rw [if_pos hv]; omega
    · rw [if_neg hv]
      by_cases hz : length * 4 - 24 > 0
      · rw [if_pos hz]; omega
      · rw [if_neg hz]; omega
  · intro opcode length _ hpos
    simp only [genericConsumed]
    rw [if_pos hpos]
    constructor
    · intro hle
      have hno : ¬ (length - 1) * 4 > 65536 := by omega
      rw [if_neg hno]
      omega
    · intro hgt
      rw [if_pos hgt]
      omega

theorem oversized_payload_framing_witness :
    putImageConsumed 7 5000 10 = 28 ∧
    genericConsumed 5 = 20 ∧ genericBodyRead 55 :=
  ⟨oversized_payload_framing.1 7 5000 10 (by decide),
    (oversized_payload_framing.2 55 5 (by decide) (by decide)).1 (by decide),
    by decide⟩

/-- C8 counterexample: a generic-path request (opcode 61, ClearArea) with
`length = 20000` has a 79996-byte body, but the capped read consumes only
65540 bytes of the 80000-byte request — the stream is left misaligned,
contradicting the claim that the entire offending payload is drained. -/
theorem oversized_payload_framing_counterexample :
    genericBodyRead 61 ∧ genericConsumed 20000 = 65540 ∧
    genericConsumed 20000 ≠ 4 * 20000 := by
  refine ⟨by decide, by decide, by decide⟩

/-! ### C5 — 120-byte connection reply in the negotiated byte order -/

theorem write16_eq_encode16 (msb : Bool) (v : Nat) : write16 msb v = encode16 msb v := by
  have hand : v &&& 0xff = v % 256 := by
    have := Nat.and_pow_two_sub_one_eq_mod v 8
    norm_num at this
    exact this
  have hshift : (v >>> 8) &&& 0xff = v / 256 % 256 := by
    have := Nat.and_pow_two_sub_one_eq_mod (v >>> 8) 8
    norm_num at this
    rw [this, Nat.shiftRight_eq_div_pow]
  cases msb <;> simp [write16, encode16, hand, hshift]

theorem write32_eq_encode32 (msb : Bool) (v : Nat) : write32 msb v = encode32 msb v := by
  have hand : ∀ u : Nat, u &&& 0xff = u % 256 := by
    intro u
    have := Nat.and_pow_two_sub_one_eq_mod u 8
    norm_num at this
    exact this
  have h8 : v >>> 8 = v / 256 := by rw [Nat.shiftRight_eq_div_pow]
  have h16 : v >>> 16 = v / 65536 := by rw [Nat.shiftRight_eq_div_pow]
  have h24 : v >>> 24 = v / 16777216 := by rw [Nat.shiftRight_eq_div_pow]
  cases msb <;> simp [write32, encode32, hand, h8, h16, h24]

/-- C5: for every accepted connection the setup success reply is exactly
120 bytes, and every multi-byte field in it is encoded in the byte order
declared by the first byte of the client's connection request (0x42 means
MSB first, anything else LSB first): the reply equals the same layout
with each 16/32-bit field written big- or little-endian accordingly. -/
theorem connectionReply_length_and_order :
    ∀ (firstByte width height : Nat),
      (connectionReply (negotiateByteOrder firstByte) width height).length = 120 ∧
      connectionReply (negotiateByteOrder firstByte) width height
        = connectionReplyOrdered (negotiateByteOrder firstByte) width height := by
  intro firstByte width height
  constructor
  · cases negotiateByteOrder firstByte <;>
      simp [connectionReply, write16, write32]
  · simp only [connectionReply, connectionReplyOrdered,
      write16_eq_encode16, write32_eq_encode32]

/-! ### C4 — atom table -/

/-- Invariant of the atom tables: ids start at 1, every interned id is
below `nextAtomId` (so ids are never reused), and the reverse table
agrees with the forward table. -/
def WFAtom (st : AtomState) : Prop :=
  1 ≤ st.nextAtomId ∧
  ∀ n id, lookupA st.atomNameToId n = some id →
    1 ≤ id ∧ id < st.nextAtomId ∧ lookupA st.atomIdToName id = some n

/-- The atom-table contents after a fresh name is interned (proof-local
abbreviation for the record built by the InternAtom handler). -/
def internInsert (st : AtomState) (name : String) : AtomState where
  atomNameToId := insertA st.atomNameToId name st.nextAtomId
  atomIdToName := insertA st.atomIdToName st.nextAtomId name
  nextAtomId := st.nextAtomId + 1

theorem WFAtom_empty : WFAtom emptyAtomState := by
  refine ⟨by decide, ?_⟩
  intro n id h
  simp [emptyAtomState, lookupA] at h

/-- C4 (amended): for every nonempty atom name of at most 256 bytes, two
InternAtom requests with `only_if_exists = false` return the same nonzero
id, GetAtomName on that id returns the name, ids are at least 1 and stay
below the monotonically growing `nextAtomId` (so they are never reused),
and `only_if_exists = true` on a name not yet interned returns 0 and
leaves the table untouched.  (The empty name — including any name whose
length field exceeds 256, which the handler truncates to the empty
name — returns atom 0 instead.) -/
theorem internAtom_spec :
    ∀ (st : AtomState) (name : String),
      WFAtom st → 0 < name.length → name.length ≤ 256 →
      ((internAtomStep st false name).2 ≠ 0 ∧
       internAtomStep (internAtomStep st false name).1 false name
         = ((internAtomStep st false name).1, (internAtomStep st false name).2) ∧
       getAtomNameStep (internAtomStep st false name).1
         (internAtomStep st false name).2 = name ∧
       1 ≤ (internAtomStep st false name).2 ∧
       (internAtomStep st false name).2 < (internAtomStep st false name).1.nextAtomId ∧
       st.nextAtomId ≤ (internAtomStep st false name).1.nextAtomId ∧
       WFAtom (internAtomStep st false name).1) ∧
      (∀ raw : String, lookupA st.atomNameToId (normalizeAtomName raw) = none →
        internAtomStep st true raw = (st, 0)) := by
  intro st name hwf h0 h256
  have hnorm : normalizeAtomName name = name := by
    simp [normalizeAtomName, h0, h256]
  have hne : name ≠ "" := by
    intro e
    rw [e] at h0
    exact absurd h0 (by decide)
  constructor
  · cases hlook : lookupA st.atomNameToId name with
    | some id =>
      have hid := hwf.2 name id hlook
      have hstep : internAtomStep st false name = (st, id) := by
        simp [internAtomStep, hnorm, hlook]
      rw [hstep]
      dsimp only
      refine ⟨by omega, by rw [hstep], ?_, by omega, by omega, le_refl _, hwf⟩
      simp [getAtomNameStep, hid.2.2]
    | none =>
      have hstep : internAtomStep st false name = (internInsert st name, st.nextAtomId) := by
        simp [internAtomStep, internInsert, hnorm, hlook, hne]
      rw [hstep]
      dsimp only
      have hn1 := hwf.1
      have hnx : (internInsert st name).nextAtomId = st.nextAtomId + 1 := rfl
      have hfwd : (internInsert st name).atomNameToId
          = insertA st.atomNameToId name st.nextAtomId := rfl
      have hrev : (internInsert st name).atomIdToName
          = insertA st.atomIdToName st.nextAtomId name := rfl
      refine ⟨by omega, ?_, ?_, by omega, by omega, by omega, ?_⟩
      · simp [internAtomStep, hnorm, internInsert, lookupA_insertA_self]
      · simp [getAtomNameStep, internInsert, lookupA_insertA_self]
      · refine ⟨by omega, ?_⟩
        intro n id hl
        rw [hfwd] at hl
        by_cases hn : n = name
        · subst hn
          rw [lookupA_insertA_self] at hl
          have hid : id = st.nextAtomId := by
            cases hl
            rfl
          subst hid
          exact ⟨hwf.1, by omega, by rw [hrev]; exact lookupA_insertA_self _ _ _⟩
        · rw [lookupA_insertA_ne _ _ _ _ (fun e => hn e.symm)] at hl
          have h3 := hwf.2 n id hl
          refine ⟨h3.1, by omega, ?_⟩
          rw [hrev, lookupA_insertA_ne _ _ _ _ (by omega)]
          exact h3.2.2
  · intro raw hlraw
    simp [internAtomStep, hlraw]

theorem internAtom_spec_witness :
    (internAtomStep emptyAtomState false "FOO").2 ≠ 0 ∧
    getAtomNameStep (internAtomStep emptyAtomState false "FOO").1
      (internAtomStep emptyAtomState false "FOO").2 = "FOO" :=
  ⟨((internAtom_spec emptyAtomState "FOO" WFAtom_empty (by decide) (by decide)).1).1,
   ((internAtom_spec emptyAtomState "FOO" WFAtom_empty (by decide) (by decide)).1).2.2.1⟩

/-- C4 counterexample: the claim quantifies over every atom name string,
but InternAtom with the empty name (the handler also reduces any name
longer than 256 bytes to it) returns atom 0 — not a nonzero id — even
with `only_if_exists = false`. -/
theorem internAtom_spec_counterexample :
    (internAtomStep emptyAtomState false "").2 = 0 ∧
    (internAtomStep emptyAtomState false "").1 = emptyAtomState := by
  refine ⟨by decide, by decide⟩

/-! ### C6 — DestroyWindow and the dangling-parent question -/

/-- C6 (amended): DestroyWindow removes exactly the destroyed window's
own bookkeeping (size, position, unmapped flag, event mask, list
membership) and leaves every other window's entries — including children
of the destroyed window, whose recorded parent id now dangles —
completely unchanged; there is no cascade. -/
theorem destroyWindow_no_cascade :
    ∀ (st : ServerState) (w : Nat),
      lookupA (destroyWindowStep st w).windowSizes w = none ∧
      lookupA (destroyWindowStep st w).windowPositions w = none ∧
      lookupA (destroyWindowStep st w).windowEventMasks w = none ∧
      w ∉ (destroyWindowStep st w).childWindows ∧
      w ∉ (destroyWindowStep st w).unmappedWindows ∧
      (∀ v, v ≠ w →
        lookupA (destroyWindowStep st w).windowSizes v = lookupA st.windowSizes v ∧
        lookupA (destroyWindowStep st w).windowPositions v = lookupA st.windowPositions v ∧
        lookupA (destroyWindowStep st w).windowEventMasks v = lookupA st.windowEventMasks v ∧
        ((v ∈ (destroyWindowStep st w).childWindows) ↔ v ∈ st.childWindows) ∧
        ((v ∈ (destroyWindowStep st w).unmappedWindows) ↔ v ∈ st.unmappedWindows)) := by
  intro st w
  refine ⟨lookupA_eraseA_self _ _, lookupA_eraseA_self _ _, lookupA_eraseA_self _ _,
    ?_, ?_, ?_⟩
  · simp [destroyWindowStep, List.mem_filter]
  · simp [destroyWindowStep, List.mem_filter]
  · intro v hv
    refine ⟨lookupA_eraseA_ne _ _ _ hv, lookupA_eraseA_ne _ _ _ hv,
      lookupA_eraseA_ne _ _ _ hv, ?_, ?_⟩
    · simp [destroyWindowStep, List.mem_filter, hv]
    · simp [destroyWindowStep, List.mem_filter, hv]

/-- Tables after creating window 2 (child of the root) and window 3
(child of window 2). -/
def c6state : ServerState :=
  (createWindowStep ((createWindowStep initState 2 kRootWindowId 0 0 4 4).1)
    3 2 1 1 2 2).1

theorem destroyWindow_no_cascade_witness :
    lookupA (destroyWindowStep c6state 2).windowSizes 3 = lookupA c6state.windowSizes 3 ∧
    lookupA (destroyWindowStep c6state 2).windowSizes 2 = none :=
  ⟨((destroyWindow_no_cascade c6state 2).2.2.2.2.2 3 (by decide)).1,
   (destroyWindow_no_cascade c6state 2).1⟩

/-- C6 counterexample: create window 2 under the root and window 3 under
window 2, then destroy window 2 — window 3 survives with its recorded
parent id 2 referring to a destroyed window, so the dangling-parent
invariant fails and destruction does not cascade. -/
theorem destroyWindow_no_cascade_counterexample :
    lookupA (destroyWindowStep c6state 2).windowPositions 3 = some ⟨1, 1, 2⟩ ∧
    lookupA (destroyWindowStep c6state 2).windowPositions 2 = none ∧
    3 ∈ (destroyWindowStep c6state 2).childWindows := by
  refine ⟨by decide, by decide, by decide⟩

/-! ### C7 — GetGeometry and the original-size feedback-loop guard -/

theorem cfgApplyX_preserves (st : ServerState) (wid : Nat) (o : Option Int) :
    (cfgApplyX st wid o).1.windowSizes = st.windowSizes ∧
    (cfgApplyX st wid o).1.childWindows = st.childWindows ∧
    (cfgApplyX st wid o).1.pluginWidth = st.pluginWidth ∧
    (cfgApplyX st wid o).1.pluginHeight = st.pluginHeight ∧
    (cfgApplyX st wid o).1.originalChildW = st.originalChildW ∧
    (cfgApplyX st wid o).1.originalChildH = st.originalChildH ∧
    (cfgApplyX st wid o).1.uiScale = st.uiScale ∧
    (cfgApplyX st wid o).1.width = st.width ∧
    (cfgApplyX st wid o).1.height = st.height ∧
    (∀ v, v ≠ wid →
      lookupA (cfgApplyX st wid o).1.windowPositions v = lookupA st.windowPositions v) := by
  cases o with
  | none => simp [cfgApplyX]
  | some nx =>
    cases hl : lookupA st.windowPositions wid with
    | none => simp [cfgApplyX, hl]
    | some p =>
      by_cases hx : p.x = nx
      · simp [cfgApplyX, hl, hx]
      · have hstep : (cfgApplyX st wid (some nx)).1
            = { st with windowPositions := insertA st.windowPositions wid { p with x := nx } } := by
          simp [cfgApplyX, hl, hx]
        rw [hstep]
        refine ⟨rfl, rfl, rfl, rfl, rfl, rfl, rfl, rfl, rfl, ?_⟩
        intro v hv
        exact lookupA_insertA_ne _ _ _ _ (fun e => hv e.symm)

theorem cfgApplyY_preserves (st : ServerState) (wid : Nat) (o : Option Int) :
    (cfgApplyY st wid o).1.windowSizes = st.windowSizes ∧
    (cfgApplyY st wid o).1.childWindows = st.childWindows ∧
    (cfgApplyY st wid o).1.pluginWidth = st.pluginWidth ∧
    (cfgApplyY st wid o).1.pluginHeight = st.pluginHeight ∧
    (cfgApplyY st wid o).1.originalChildW = st.originalChildW ∧
    (cfgApplyY st wid o).1.originalChildH = st.originalChildH ∧
    (cfgApplyY st wid o).1.uiScale = st.uiScale ∧
    (cfgApplyY st wid o).1.width = st.width ∧
    (cfgApplyY st wid o).1.height = st.height ∧
    (∀ v, v ≠ wid →
      lookupA (cfgApplyY st wid o).1.windowPositions v = lookupA st.windowPositions v) := by
  cases o with
  | none => simp [cfgApplyY]
  | some ny =>
    cases hl : lookupA st.windowPositions wid with
    | none => simp [cfgApplyY, hl]
    | some p =>
      by_cases hy : p.y = ny
      · simp [cfgApplyY, hl, hy]
      · have hstep : (cfgApplyY st wid (some ny)).1
            = { st with windowPositions := insertA st.windowPositions wid { p with y := ny } } := by
          simp [cfgApplyY, hl, hy]
        rw [hstep]
        refine ⟨rfl, rfl, rfl, rfl, rfl, rfl, rfl, rfl, rfl, ?_⟩
        intro v hv
        exact lookupA_insertA_ne _ _ _ _ (fun e => hv e.symm)

/-- The size part of ConfigureWindow changes nothing outside
`windowSizes`, the plugin/framebuffer size and the events. -/
theorem cfgSizePart_invariants (st : ServerState) (req : CfgReq) :
    (cfgSizePart st req).1.windowPositions = st.windowPositions ∧
    (cfgSizePart st req).1.childWindows = st.childWindows ∧
    (cfgSizePart st req).1.originalChildW = st.originalChildW ∧
    (cfgSizePart st req).1.originalChildH = st.originalChildH ∧
    (cfgSizePart st req).1.uiScale = st.uiScale ∧
    (cfgSizePart st req).1.width = st.width ∧
    (cfgSizePart st req).1.height = st.height ∧
    (cfgSizePart st req).1.unmappedWindows = st.unmappedWindows := by
  simp only [cfgSizePart]
  by_cases hbr : req.wid ∈ st.childWindows ∧
      ((req.newW?.getD (-1) : Int) > 0 ∨ (req.newH?.getD (-1) : Int) > 0)
  · simp only [if_pos hbr]
    refine ⟨?_, ?_, ?_, ?_, ?_, ?_, ?_, ?_⟩
    · rw [apply_ite ServerState.windowPositions]; simp [resizeFb]
    · rw [apply_ite ServerState.childWindows]; simp [resizeFb]
    · rw [apply_ite ServerState.originalChildW]; simp [resizeFb]
    · rw [apply_ite ServerState.originalChildH]; simp [resizeFb]
    · rw [apply_ite ServerState.uiScale]; simp [resizeFb]
    · rw [apply_ite ServerState.width]; simp [resizeFb]
    · rw [apply_ite ServerState.height]; simp [resizeFb]
    · rw [apply_ite ServerState.unmappedWindows]; simp [resizeFb]
  · simp only [if_neg hbr]
    refine ⟨?_, ?_, ?_, ?_, ?_, ?_, ?_, ?_⟩ <;> trivial

theorem cfgSizePart_sizes_ne (st : ServerState) (req : CfgReq) (v : Nat)
    (hv : v ≠ req.wid) :
    lookupA (cfgSizePart st req).1.windowSizes v = lookupA st.windowSizes v := by
  simp only [cfgSizePart]
  by_cases hbr : req.wid ∈ st.childWindows ∧
      ((req.newW?.getD (-1) : Int) > 0 ∨ (req.newH?.getD (-1) : Int) > 0)
  · simp only [if_pos hbr]
    rw [apply_ite ServerState.windowSizes]
    simp only [resizeFb]
    rw [ite_self]
    exact lookupA_insertA_ne _ _ _ _ (fun e => hv e.symm)
  · simp only [if_neg hbr]

/-- ConfigureWindow never touches the original creation size, the UI
scale, the surface size, or the tables of any other window id. -/
theorem configureWindow_preserves_other (st : ServerState) (req : CfgReq)
    (v : Nat) (hv : v ≠ req.wid) :
    (configureWindowStep st req).1.originalChildW = st.originalChildW ∧
    (configureWindowStep st req).1.originalChildH = st.originalChildH ∧
    (configureWindowStep st req).1.uiScale = st.uiScale ∧
    (configureWindowStep st req).1.width = st.width ∧
    (configureWindowStep st req).1.height = st.height ∧
    lookupA (configureWindowStep st req).1.windowSizes v = lookupA st.windowSizes v ∧
    lookupA (configureWindowStep st req).1.windowPositions v
      = lookupA st.windowPositions v := by
  have hX := cfgApplyX_preserves st req.wid req.newX?
  have hY := cfgApplyY_preserves (cfgApplyX st req.wid req.newX?).1 req.wid req.newY?
  have hI := cfgSizePart_invariants
    (cfgApplyY (cfgApplyX st req.wid req.newX?).1 req.wid req.newY?).1 req
  have hS := cfgSizePart_sizes_ne
    (cfgApplyY (cfgApplyX st req.wid req.newX?).1 req.wid req.newY?).1 req v hv
  simp only [configureWindowStep]
  try dsimp only
  refine ⟨?_, ?_, ?_, ?_, ?_, ?_, ?_⟩
  · rw [hI.2.2.1, hY.2.2.2.2.1, hX.2.2.2.2.1]
  · rw [hI.2.2.2.1, hY.2.2.2.2.2.1, hX.2.2.2.2.2.1]
  · rw [hI.2.2.2.2.1, hY.2.2.2.2.2.2.1, hX.2.2.2.2.2.2.1]
  · rw [hI.2.2.2.2.2.1, hY.2.2.2.2.2.2.2.1, hX.2.2.2.2.2.2.2.1]
  · rw [hI.2.2.2.2.2.2.1, hY.2.2.2.2.2.2.2.2.1, hX.2.2.2.2.2.2.2.2.1]
  · rw [hS, hY.1, hX.1]
  · rw [hI.1, hY.2.2.2.2.2.2.2.2.2 v hv, hX.2.2.2.2.2.2.2.2.2 v hv]

/-- C7 (amended): it is the root-window GetGeometry query (the root id is
never in `windowSizes`) that returns the first window's original creation
size scaled by the UI-scale factor with the results clamped to a minimum
of 1 — and that answer is unaffected by any ConfigureWindow processed on
other windows (in particular resizes of the top-level plugin window); a
GetGeometry on the top-level plugin window id itself, by contrast, hits
its `windowSizes` entry and returns the current size. -/
theorem getGeometry_root_original_scaled :
    ∀ (st : ServerState),
      lookupA st.windowSizes kRootWindowId = none →
      st.originalChildW > 0 →
      ((getGeometryStep st kRootWindowId).2.2 =
        ((if (⌊(st.originalChildW : ℚ) * st.uiScale⌋ : Int) < 1 then 1
          else ⌊(st.originalChildW : ℚ) * st.uiScale⌋),
         (if (⌊(st.originalChildH : ℚ) * st.uiScale⌋ : Int) < 1 then 1
          else ⌊(st.originalChildH : ℚ) * st.uiScale⌋)) ∧
      (∀ req : CfgReq, kRootWindowId ≠ req.wid →
        getGeometryStep (configureWindowStep st req).1 kRootWindowId
          = getGeometryStep st kRootWindowId)) := by
  intro st hroot horig
  constructor
  · simp [getGeometryStep, hroot, horig]
  · intro req hne
    have hp := configureWindow_preserves_other st req kRootWindowId hne
    simp only [getGeometryStep, hp.2.2.2.2.2.1, hp.2.2.2.2.2.2, hp.1, hp.2.1,
      hp.2.2.1, hp.2.2.2.1, hp.2.2.2.2.1]

/-- State after the first window (id 2, 400×300) is created. -/
def c7state0 : ServerState :=
  (createWindowStep initState 2 kRootWindowId 0 0 400 300).1

/-- The same display after the client resizes its top-level window to
200×100 via ConfigureWindow. -/
def c7state : ServerState :=
  (configureWindowStep c7state0 ⟨2, none, none, some 200, some 100⟩).1

theorem getGeometry_root_original_scaled_witness :
    getGeometryStep (configureWindowStep c7state0
        ⟨2, none, none, some 200, some 100⟩).1 kRootWindowId
      = getGeometryStep c7state0 kRootWindowId :=
  ((getGeometry_root_original_scaled c7state0 (by decide) (by decide)).2
    ⟨2, none, none, some 200, some 100⟩ (by decide))

/-- C7 counterexample: after creating the top-level window at 400×300
(original size, UI scale 1) and resizing it to 200×100, GetGeometry on
the top-level window id returns the current 200×100 from `windowSizes`,
not the original-size-times-scale 400×300 the claim requires. -/
theorem getGeometry_root_original_scaled_counterexample :
    c7state.originalChildW = 400 ∧ c7state.originalChildH = 300 ∧
    (getGeometryStep c7state 2).2.2 = (200, 100) ∧
    ((200 : Int), (100 : Int)) ≠ ((400 : Int), (300 : Int)) := by
  refine ⟨by decide, by decide, by decide, by decide⟩

/-! ### C2 — hit testing -/

/-- C2 (amended): part one — the hit test returns the result of the
latest window in the raise order (reverse walk over `childWindows`,
excluding index 0) whose candidate test succeeds, so a point strictly
inside a mapped child window resolves to that child and never to a window
listed before it (its parent, whenever the child was created or raised
after the parent); part two — the result is either a mapped window that
passed the candidate test or the fallback (the top-level window, or the
root when no window exists), and the fallback is returned regardless of
its own map state. -/
theorem hitTest_deepest_mapped :
    ∀ (st : ServerState) (x y : Int),
      (∀ (t : Nat) (rest l1 l2 : List Nat) (wid : Nat) (r : HitResult),
        st.childWindows = t :: rest → rest = l1 ++ wid :: l2 →
        hitCandidate st x y wid = some r →
        (∀ v ∈ l2, hitCandidate st x y v = none) →
        hitTestChildWindow st x y = r) ∧
      ((hitTestChildWindow st x y).wid ∉ st.unmappedWindows ∨
        hitTestChildWindow st x y =
          ⟨(match st.childWindows with | [] => kRootWindowId | t :: _ => t), x, y⟩) := by
  intro st x y
  constructor
  · intro t rest l1 l2 wid r hcw hrest hc hnone
    unfold hitTestChildWindow
    rw [hcw, hrest]
    simp only [List.drop_succ_cons, List.drop_zero, List.reverse_append,
      List.reverse_cons, List.findSome?_append]
    have h2 : l2.reverse.findSome? (hitCandidate st x y) = none := by
      rw [List.findSome?_eq_none_iff]
      intro v hv
      exact hnone v (List.mem_reverse.mp hv)
    rw [h2]
    simp [List.findSome?, hc]
  · unfold hitTestChildWindow
    cases hfs : (st.childWindows.drop 1).reverse.findSome? (hitCandidate st x y) with
    | none => right; rfl
    | some r0 =>
      left
      obtain ⟨v, _, hcand⟩ := List.exists_of_findSome?_eq_some hfs
      unfold hitCandidate at hcand
      by_cases hu : v ∈ st.unmappedWindows
      · rw [if_pos hu] at hcand
        cases hcand
      · rw [if_neg hu] at hcand
        cases hp : lookupA st.windowPositions v with
        | none => simp [hp] at hcand
        | some p =>
          cases hs : lookupA st.windowSizes v with
          | none => simp [hp, hs] at hcand
          | some sz =>
            simp only [hp, hs] at hcand
            by_cases hin : (getAbsolutePos st v).1 ≤ x ∧ x < (getAbsolutePos st v).1 + sz.1
                ∧ (getAbsolutePos st v).2 ≤ y ∧ y < (getAbsolutePos st v).2 + sz.2
            · rw [if_pos hin] at hcand
              have hwid : r0.wid = v := by
                cases hcand
                rfl
              rw [hwid]
              exact hu
            · rw [if_neg hin] at hcand
              cases hcand

/-- Windows for the hit-test witness: top-level 2 (8×8), widget 3 filling
it (child of 2, mapped), and widget 4 (child of 3 at (1,1), 2×2, mapped)
— the parent 3 fully overlaps its child 4. -/
def c2wstate : ServerState :=
  { initState with
    childWindows := [2, 3, 4]
    windowSizes := [(2, (8, 8)), (3, (8, 8)), (4, (2, 2))]
    windowPositions := [(2, ⟨0, 0, kRootWindowId⟩), (3, ⟨0, 0, 2⟩), (4, ⟨1, 1, 3⟩)]
    unmappedWindows := []
    pluginWidth := 8
    pluginHeight := 8
    fbSize := 64 }

theorem hitTest_deepest_mapped_witness :
    hitTestChildWindow c2wstate 2 2 = ⟨4, 1, 1⟩ :=
  (hitTest_deepest_mapped c2wstate 2 2).1 2 [3, 4] [3] [] 4 ⟨4, 1, 1⟩
    rfl rfl (by decide) (by decide)

/-- Hit-test counterexample state: a single window 2 that was created but
never mapped. -/
def c2state : ServerState :=
  { initState with
    childWindows := [2]
    windowSizes := [(2, (4, 4))]
    windowPositions := [(2, ⟨0, 0, kRootWindowId⟩)]
    unmappedWindows := [2]
    pluginWidth := 4
    pluginHeight := 4
    fbSize := 16 }

/-- C2 counterexample: the fallback of the hit test is the top-level
window regardless of its map state, so a window that was created but
never mapped is returned — the claim that an unmapped window is never
returned by hit testing is false. -/
theorem hitTest_deepest_mapped_counterexample :
    hitTestChildWindow c2state 1 1 = ⟨2, 1, 1⟩ ∧ 2 ∈ c2state.unmappedWindows := by
  refine ⟨by decide, by decide⟩

/-! ### C3 — ConfigureWindow suppression of same-value updates -/

theorem cfgApplyX_pos_none (st : ServerState) (wid : Nat) (o : Option Int)
    (h : lookupA st.windowPositions wid = none) : cfgApplyX st wid o = (st, false) := by
  cases o with
  | none => rfl
  | some nx => simp [cfgApplyX, h]

theorem cfgApplyX_noop_eq (st : ServerState) (wid : Nat) (nx : Int) (p : WindowPos)
    (h : lookupA st.windowPositions wid = some p) (he : p.x = nx) :
    cfgApplyX st wid (some nx) = (st, false) := by
  simp [cfgApplyX, h, he]

theorem cfgApplyY_pos_none (st : ServerState) (wid : Nat) (o : Option Int)
    (h : lookupA st.windowPositions wid = none) : cfgApplyY st wid o = (st, false) := by
  cases o with
  | none => rfl
  | some ny => simp [cfgApplyY, h]

theorem cfgApplyY_noop_eq (st : ServerState) (wid : Nat) (ny : Int) (p : WindowPos)
    (h : lookupA st.windowPositions wid = some p) (he : p.y = ny) :
    cfgApplyY st wid (some ny) = (st, false) := by
  simp [cfgApplyY, h, he]

/-- After the x-update the window's entry carries the requested x (when
present) and its y/parent unchanged; a missing entry stays missing. -/
theorem cfgApplyX_entry (st : ServerState) (wid : Nat) (o : Option Int) :
    (lookupA st.windowPositions wid = none →
      (cfgApplyX st wid o).1.windowPositions = st.windowPositions) ∧
    (∀ p, lookupA st.windowPositions wid = some p →
      ∃ p', lookupA (cfgApplyX st wid o).1.windowPositions wid = some p' ∧
        p'.x = o.getD p.x ∧ p'.y = p.y ∧ p'.parent = p.parent) := by
  cases o with
  | none => exact ⟨fun _ => rfl, fun p hp => ⟨p, hp, rfl, rfl, rfl⟩⟩
  | some nx =>
    constructor
    · intro h
      rw [cfgApplyX_pos_none st wid (some nx) h]
    · intro p hp
      by_cases hx : p.x = nx
      · refine ⟨p, ?_, ?_, rfl, rfl⟩
        · rw [cfgApplyX_noop_eq st wid nx p hp hx]
          exact hp
        · simpa using hx
      · refine ⟨{ p with x := nx }, ?_, by simp, rfl, rfl⟩
        have hstep : (cfgApplyX st wid (some nx)).1
            = { st with windowPositions :=
                  insertA st.windowPositions wid { p with x := nx } } := by
          simp [cfgApplyX, hp, hx]
        rw [hstep]
        exact lookupA_insertA_self _ _ _

theorem cfgApplyY_entry (st : ServerState) (wid : Nat) (o : Option Int) :
    (lookupA st.windowPositions wid = none →
      (cfgApplyY st wid o).1.windowPositions = st.windowPositions) ∧
    (∀ p, lookupA st.windowPositions wid = some p →
      ∃ p', lookupA (cfgApplyY st wid o).1.windowPositions wid = some p' ∧
        p'.y = o.getD p.y ∧ p'.x = p.x ∧ p'.parent = p.parent) := by
  cases o with
  | none => exact ⟨fun _ => rfl, fun p hp => ⟨p, hp, rfl, rfl, rfl⟩⟩
  | some ny =>
    constructor
    · intro h
      rw [cfgApplyY_pos_none st wid (some ny) h]
    · intro p hp
      by_cases hy : p.y = ny
      · refine ⟨p, ?_, ?_, rfl, rfl⟩
        · rw [cfgApplyY_noop_eq st wid ny p hp hy]
          exact hp
        · simpa using hy
      · refine ⟨{ p with y := ny }, ?_, by simp, rfl, rfl⟩
        have hstep : (cfgApplyY st wid (some ny)).1
            = { st with windowPositions :=
                  insertA st.windowPositions wid { p with y := ny } } := by
          simp [cfgApplyY, hp, hy]
        rw [hstep]
        exact lookupA_insertA_self _ _ _

/-- If the requested size matches the stored one (and, for the top-level
window, the tracked plugin size), the size part of ConfigureWindow emits
nothing and leaves the state unchanged. -/
theorem cfgSizePart_noop (st : ServerState) (req : CfgReq) (s : Int × Int)
    (hs : lookupA st.windowSizes req.wid = some s)
    (hfw : (if (req.newW?.getD (-1) : Int) > 0 then req.newW?.getD (-1) else s.1) = s.1)
    (hfh : (if (req.newH?.getD (-1) : Int) > 0 then req.newH?.getD (-1) else s.2) = s.2)
    (htop : st.childWindows.head? = some req.wid →
      s.1 = st.pluginWidth ∧ s.2 = st.pluginHeight) :
    cfgSizePart st req = (st, []) := by
  simp only [cfgSizePart]
  by_cases hbr : req.wid ∈ st.childWindows ∧
      ((req.newW?.getD (-1) : Int) > 0 ∨ (req.newH?.getD (-1) : Int) > 0)
  · simp only [if_pos hbr, hs, Option.getD_some]
    rw [hfw, hfh]
    by_cases htl : st.childWindows.head? = some req.wid
    · obtain ⟨h1, h2⟩ := htop htl
      have hA : ¬ (s.1 ≠ st.pluginWidth ∨ s.2 ≠ st.pluginHeight) := by
        push_neg
        exact ⟨h1, h2⟩
      have hA2 : ¬ ((if st.childWindows.head? = some req.wid then
            s.1 ≠ st.pluginWidth ∨ s.2 ≠ st.pluginHeight
          else s.1 ≠ s.1 ∨ s.2 ≠ s.2) ∧ st.childWindows.head? = some req.wid) := by
        rw [if_pos htl]
        exact fun hc => hA hc.1
      have hA3 : ¬ (if st.childWindows.head? = some req.wid then
            s.1 ≠ st.pluginWidth ∨ s.2 ≠ st.pluginHeight
          else s.1 ≠ s.1 ∨ s.2 ≠ s.2) := by
        rw [if_pos htl]
        exact hA
      simp only [if_neg hA2, if_neg hA3]
      rw [insertA_lookup_eq st.windowSizes req.wid (s.1, s.2) hs]
    · have hB : ¬ (s.1 ≠ s.1 ∨ s.2 ≠ s.2) := by
        push_neg
        exact ⟨rfl, rfl⟩
      have hB2 : ¬ ((if st.childWindows.head? = some req.wid then
            s.1 ≠ st.pluginWidth ∨ s.2 ≠ st.pluginHeight
          else s.1 ≠ s.1 ∨ s.2 ≠ s.2) ∧ st.childWindows.head? = some req.wid) :=
        fun hc => htl hc.2
      have hB3 : ¬ (if st.childWindows.head? = some req.wid then
            s.1 ≠ st.pluginWidth ∨ s.2 ≠ st.pluginHeight
          else s.1 ≠ s.1 ∨ s.2 ≠ s.2) := by
        rw [if_neg htl]
        exact hB
      simp only [if_neg hB2, if_neg hB3]
      rw [insertA_lookup_eq st.windowSizes req.wid (s.1, s.2) hs]
  · simp only [if_neg hbr]

/-- When the size branch runs, the stored size afterwards is the computed
final size, and for the top-level window the tracked plugin size agrees
with it. -/
theorem cfgSizePart_branch (st : ServerState) (req : CfgReq)
    (hbr : req.wid ∈ st.childWindows ∧
      ((req.newW?.getD (-1) : Int) > 0 ∨ (req.newH?.getD (-1) : Int) > 0)) :
    lookupA (cfgSizePart st req).1.windowSizes req.wid
      = some (if (req.newW?.getD (-1) : Int) > 0 then req.newW?.getD (-1)
              else ((lookupA st.windowSizes req.wid).getD (0, 0)).1,
             if (req.newH?.getD (-1) : Int) > 0 then req.newH?.getD (-1)
              else ((lookupA st.windowSizes req.wid).getD (0, 0)).2) ∧
    (st.childWindows.head? = some req.wid →
      (cfgSizePart st req).1.pluginWidth
        = (if (req.newW?.getD (-1) : Int) > 0 then req.newW?.getD (-1)
           else ((lookupA st.windowSizes req.wid).getD (0, 0)).1) ∧
      (cfgSizePart st req).1.pluginHeight
        = (if (req.newH?.getD (-1) : Int) > 0 then req.newH?.getD (-1)
           else ((lookupA st.windowSizes req.wid).getD (0, 0)).2)) := by
  simp only [cfgSizePart, if_pos hbr]
  constructor
  · rw [apply_ite ServerState.windowSizes]
    simp only [resizeFb]
    rw [ite_self]
    exact lookupA_insertA_self _ _ _
  · intro htl
    set fWt : Int := (if (req.newW?.getD (-1) : Int) > 0 then req.newW?.getD (-1)
        else ((lookupA st.windowSizes req.wid).getD (0, 0)).1) with hfw
    set fHt : Int := (if (req.newH?.getD (-1) : Int) > 0 then req.newH?.getD (-1)
        else ((lookupA st.windowSizes req.wid).getD (0, 0)).2) with hfh
    by_cases hA : fWt ≠ st.pluginWidth ∨ fHt ≠ st.pluginHeight
    · have hc2 : ((if st.childWindows.head? = some req.wid then
          fWt ≠ st.pluginWidth ∨ fHt ≠ st.pluginHeight
        else fWt ≠ ((lookupA st.windowSizes req.wid).getD (0, 0)).1
          ∨ fHt ≠ ((lookupA st.windowSizes req.wid).getD (0, 0)).2) ∧
          st.childWindows.head? = some req.wid) := ⟨by rw [if_pos htl]; exact hA, htl⟩
      simp only [if_pos hc2]
      simp [resizeFb]
    · have hc2 : ¬ ((if st.childWindows.head? = some req.wid then
          fWt ≠ st.pluginWidth ∨ fHt ≠ st.pluginHeight
        else fWt ≠ ((lookupA st.windowSizes req.wid).getD (0, 0)).1
          ∨ fHt ≠ ((lookupA st.windowSizes req.wid).getD (0, 0)).2) ∧
          st.childWindows.head? = some req.wid) := by
        intro hc
        have hc1 := hc.1
        rw [if_pos htl] at hc1
        exact hA hc1
      simp only [if_neg hc2]
      push_neg at hA
      exact ⟨hA.1.symm, hA.2.symm⟩

/-- Re-running the size part of one ConfigureWindow is a no-op. -/
theorem cfgSizePart_resend (st : ServerState) (req : CfgReq) :
    cfgSizePart (cfgSizePart st req).1 req = ((cfgSizePart st req).1, []) := by
  by_cases hbr : req.wid ∈ st.childWindows ∧
      ((req.newW?.getD (-1) : Int) > 0 ∨ (req.newH?.getD (-1) : Int) > 0)
  · have hb := cfgSizePart_branch st req hbr
    apply cfgSizePart_noop (cfgSizePart st req).1 req
      ((if (req.newW?.getD (-1) : Int) > 0 then req.newW?.getD (-1)
          else ((lookupA st.windowSizes req.wid).getD (0, 0)).1),
       (if (req.newH?.getD (-1) : Int) > 0 then req.newH?.getD (-1)
          else ((lookupA st.windowSizes req.wid).getD (0, 0)).2)) hb.1
    · by_cases hw : (req.newW?.getD (-1) : Int) > 0
      · simp [hw]
      · simp [hw]
    · by_cases hh : (req.newH?.getD (-1) : Int) > 0
      · simp [hh]
      · simp [hh]
    · intro htl2
      have hhead : (cfgSizePart st req).1.childWindows.head? = st.childWindows.head? :=
        congrArg List.head? (cfgSizePart_invariants st req).2.1
      rw [hhead] at htl2
      have h2 := hb.2 htl2
      exact ⟨h2.1.symm, h2.2.symm⟩
  · have h1 : cfgSizePart st req = (st, []) := by
      simp only [cfgSizePart, if_neg hbr]
    rw [h1]
    exact h1

/-- C3 (amended): a ConfigureWindow whose present value-mask fields all
equal the currently stored values emits no ConfigureNotify and no Expose
and leaves the state unchanged, provided the stored size of the top-level
window agrees with the tracked plugin size (which the counterexample
shows can fail only after the first-created window was destroyed and a
differently-sized top-level took its place); and, unconditionally,
re-sending a ConfigureWindow identical to one just processed emits no
second Expose/ConfigureNotify pair and leaves the state fixed. -/
theorem configureWindow_idempotent :
    (∀ (st : ServerState) (req : CfgReq) (p : WindowPos) (s : Int × Int),
      lookupA st.windowPositions req.wid = some p →
      lookupA st.windowSizes req.wid = some s →
      (∀ v, req.newX? = some v → v = p.x) →
      (∀ v, req.newY? = some v → v = p.y) →
      (∀ v, req.newW? = some v → v = s.1) →
      (∀ v, req.newH? = some v → v = s.2) →
      (st.childWindows.head? = some req.wid →
        s.1 = st.pluginWidth ∧ s.2 = st.pluginHeight) →
      configureWindowStep st req = (st, [])) ∧
    (∀ (st : ServerState) (req : CfgReq),
      configureWindowStep (configureWindowStep st req).1 req
        = ((configureWindowStep st req).1, [])) := by
  constructor
  · intro st req p s hp hs hx hy hw hh htop
    have hX : cfgApplyX st req.wid req.newX? = (st, false) := by
      cases hxo : req.newX? with
      | none => rfl
      | some nx => exact cfgApplyX_noop_eq st req.wid nx p hp (hx nx hxo).symm
    have hY : cfgApplyY st req.wid req.newY? = (st, false) := by
      cases hyo : req.newY? with
      | none => rfl
      | some ny => exact cfgApplyY_noop_eq st req.wid ny p hp (hy ny hyo).symm
    have hfw : (if (req.newW?.getD (-1) : Int) > 0 then req.newW?.getD (-1) else s.1)
        = s.1 := by
      cases hwo : req.newW? with
      | none => norm_num
      | some v =>
        have hv := hw v hwo
        subst hv
        simp
    have hfh : (if (req.newH?.getD (-1) : Int) > 0 then req.newH?.getD (-1) else s.2)
        = s.2 := by
      cases hho : req.newH? with
      | none => norm_num
      | some v =>
        have hv := hh v hho
        subst hv
        simp
    have hS : cfgSizePart st req = (st, []) := cfgSizePart_noop st req s hs hfw hfh htop
    simp [configureWindowStep, hX, hY, hS, exposeTopEvents]
  · intro st req
    have hXpre := cfgApplyX_entry st req.wid req.newX?
    have hYpre := cfgApplyY_entry (cfgApplyX st req.wid req.newX?).1 req.wid req.newY?
    have hposEq : (cfgSizePart
          (cfgApplyY (cfgApplyX st req.wid req.newX?).1 req.wid req.newY?).1
          req).1.windowPositions
        = (cfgApplyY (cfgApplyX st req.wid req.newX?).1 req.wid req.newY?).1.windowPositions :=
      (cfgSizePart_invariants _ req).1
    have hmain : ∀ s1 : ServerState,
        s1 = (cfgSizePart
          (cfgApplyY (cfgApplyX st req.wid req.newX?).1 req.wid req.newY?).1 req).1 →
        configureWindowStep s1 req = (s1, []) := by
      intro s1 hs1
      have hXY2 : cfgApplyX s1 req.wid req.newX? = (s1, false) ∧
          cfgApplyY s1 req.wid req.newY? = (s1, false) := by
        cases hl : lookupA st.windowPositions req.wid with
        | none =>
          have e1 := hXpre.1 hl
          have hl1 : lookupA (cfgApplyX st req.wid req.newX?).1.windowPositions req.wid
              = none := by rw [e1]; exact hl
          have e2 := hYpre.1 hl1
          have hl2 : lookupA s1.windowPositions req.wid = none := by
            rw [hs1, hposEq, e2]; exact hl1
          exact ⟨cfgApplyX_pos_none s1 req.wid req.newX? hl2,
            cfgApplyY_pos_none s1 req.wid req.newY? hl2⟩
        | some p =>
          obtain ⟨p1, hp1, hx1, hy1, hpar1⟩ := hXpre.2 p hl
          obtain ⟨p2, hp2, hy2, hx2, hpar2⟩ := hYpre.2 p1 hp1
          have hp2s1 : lookupA s1.windowPositions req.wid = some p2 := by
            rw [hs1, hposEq]; exact hp2
          constructor
          · cases hxo : req.newX? with
            | none => rfl
            | some nx =>
              apply cfgApplyX_noop_eq s1 req.wid nx p2 hp2s1
              rw [hx2, hx1, hxo]
              simp
          · cases hyo : req.newY? with
            | none => rfl
            | some ny =>
              apply cfgApplyY_noop_eq s1 req.wid ny p2 hp2s1
              rw [hy2, hyo]
              simp
      have hS2 : cfgSizePart s1 req = (s1, []) := by
        rw [hs1]
        exact cfgSizePart_resend _ req
      simp [configureWindowStep, hXY2.1, hXY2.2, hS2, exposeTopEvents]
    exact hmain _ rfl

/-- Tables after creating a 400×300 first window (id 2), destroying it,
and creating a new 200×100 top-level window (id 5): the tracked plugin
size is still 400×300 while the stored size of window 5 is 200×100. -/
def c3state : ServerState :=
  (createWindowStep
    (destroyWindowStep (createWindowStep initState 2 kRootWindowId 0 0 400 300).1 2)
    5 kRootWindowId 0 0 200 100).1

theorem configureWindow_idempotent_witness :
    configureWindowStep c7state0 ⟨2, some 0, some 0, some 400, some 300⟩
      = (c7state0, []) :=
  configureWindow_idempotent.1 c7state0 ⟨2, some 0, some 0, some 400, some 300⟩
    ⟨0, 0, kRootWindowId⟩ (400, 300) (by decide) (by decide)
    (fun v hv => by cases hv; rfl) (fun v hv => by cases hv; rfl)
    (fun v hv => by cases hv; rfl) (fun v hv => by cases hv; rfl)
    (fun _ => by constructor <;> decide)

/-- C3 counterexample: after destroy-and-recreate of the top-level
window, a ConfigureWindow carrying exactly the stored 200×100 size still
emits a ConfigureNotify+Expose pair (the handler compares the top-level
request against the stale tracked plugin size 400×300), contradicting
the claim that value-mask fields equal to the stored values emit no
events and leave the state unchanged. -/
theorem configureWindow_idempotent_counterexample :
    lookupA c3state.windowSizes 5 = some (200, 100) ∧
    c3state.childWindows = [5] ∧
    (configureWindowStep c3state ⟨5, none, none, some 200, some 100⟩).2
      = [XEvent.configureNotify 5 200 100, XEvent.expose 5 200 100] := by
  refine ⟨by decide, by decide, by decide⟩

/-! ### C1 — PutImage/GetImage round trip -/

/-- Width of the pixmap registered under `d` (0 when absent); used to
state the in-bounds premise of the round-trip claim. -/
def pixmapW (st : ServerState) (d : Nat) : Int :=
  match lookupA st.pixmaps d with
  | some pd => pd.w
  | none => 0

def pixmapH (st : ServerState) (d : Nat) : Int :=
  match lookupA st.pixmaps d with
  | some pd => pd.h
  | none => 0

theorem byteAt_lt (ps : List Nat) (i : Nat) (hb : ∀ b ∈ ps, b < 256) :
    byteAt ps i < 256 := by
  unfold byteAt
  by_cases h : i < ps.length
  · rw [List.getD_eq_getElem ps 0 h]
    exact hb _ (List.getElem_mem h)
  · rw [List.getD_eq_default ps 0 (by omega)]
    omega

/-- Bytewise readback of a stored pixel: little-endian extraction of the
packed word with its alpha byte forced returns the original three color
bytes and 0xFF for the alpha byte. -/
theorem leWord_alpha_bytes (b0 b1 b2 b3 : Nat)
    (h0 : b0 < 256) (h1 : b1 < 256) (h2 : b2 < 256) (h3 : b3 < 256) :
    leByte ((b0 + 256 * b1 + 65536 * b2 + 16777216 * b3) ||| 0xFF000000) 0 = b0 ∧
    leByte ((b0 + 256 * b1 + 65536 * b2 + 16777216 * b3) ||| 0xFF000000) 1 = b1 ∧
    leByte ((b0 + 256 * b1 + 65536 * b2 + 16777216 * b3) ||| 0xFF000000) 2 = b2 ∧
    leByte ((b0 + 256 * b1 + 65536 * b2 + 16777216 * b3) ||| 0xFF000000) 3 = 255 := by
  have hsplit : b0 + 256 * b1 + 65536 * b2 + 16777216 * b3
      = 2 ^ 24 * b3 + (b0 + 256 * b1 + 65536 * b2) := by ring
  rw [hsplit, pack_or_alpha b3 _ h3 (by omega)]
  refine ⟨?_, ?_, ?_, ?_⟩ <;>
    · simp only [leByte]
      norm_num
      omega

/-- Reading back a cell written by the LSB-first PutImage paths when the
region is fully covered and no clip rectangle meets it. -/
theorem putImageWrite_fullyCovered_read
    (old : Int → Nat) (dW dH x y w h : Int) (pixels : List Nat) (clip : List ClipRect)
    (hx : 0 ≤ x) (hy : 0 ≤ y) (hxw : x + w ≤ dW) (hyh : y + h ≤ dH)
    (hlen : w * h * 4 ≤ (pixels.length : Int))
    (hclip : ∀ dx dy : Int, x ≤ dx → dx < x + w → y ≤ dy → dy < y + h →
      clippedAt clip dx dy = false)
    (row col : Int) (hr0 : 0 ≤ row) (hrh : row < h) (hc0 : 0 ≤ col) (hcw : col < w) :
    putImageWrite false old dW dH x y w h pixels clip ((y + row) * dW + (x + col))
      = leWordAt pixels ((row * w + col) * 4).toNat ||| 0xFF000000 := by
  have hw0 : 0 < w := lt_of_le_of_lt hc0 hcw
  have hdW : 0 < dW := by omega
  have hcol1 : 0 ≤ x + col := by omega
  have hcol2 : x + col < dW := by omega
  have hi : 0 ≤ (y + row) * dW + (x + col) := by
    have := mul_nonneg (by omega : (0 : Int) ≤ y + row) (le_of_lt hdW)
    omega
  simp only [putImageWrite]
  rw [if_pos ⟨hdW, hi⟩]
  have hmod : ((y + row) * dW + (x + col)) % dW = x + col := idx_emod _ _ _ hcol1 hcol2
  have hdiv : ((y + row) * dW + (x + col)) / dW = y + row := idx_ediv _ _ _ hcol1 hcol2
  rw [hmod, hdiv]
  have hrow : y + row - y = row := by ring
  have hcol3 : x + col - x = col := by ring
  rw [hrow, hcol3]
  have hfc : 0 ≤ x ∧ 0 ≤ y ∧ x + w ≤ dW ∧ y + h ≤ dH
      ∧ w * h * 4 ≤ (pixels.length : Int) := ⟨hx, hy, hxw, hyh, hlen⟩
  by_cases hcl : clip = []
  · rw [if_pos ⟨hfc, trivial, hcl⟩]
    rw [if_pos ⟨hr0, hrh, hc0, hcw⟩]
  · rw [if_neg (fun hcon => hcl hcon.2.2)]
    rw [if_pos ⟨hfc, trivial⟩]
    rw [if_pos ⟨⟨hr0, hrh, hc0, hcw⟩,
      hclip (x + col) (y + row) (by omega) (by omega) (by omega) (by omega)⟩]

/-- Reduction of the PutImage handler when the drawable is the top-level
window (head of `childWindows`) or the bare root id, and the framebuffer
size is consistent: the write lands in the framebuffer with no ancestor
offset and the drawable's child clip list. -/
theorem putImageStep_window (st : ServerState) (drawable : Nat)
    (w h x y : Int) (pixels : List Nat)
    (hdim : w > 0 ∧ h > 0 ∧ w ≤ 4096 ∧ h ≤ 4096 ∧ (pixels.length : Int) > 0)
    (hd : st.childWindows.head? = some drawable
      ∨ (drawable = kRootWindowId ∧ drawable ∉ st.childWindows))
    (hfbeq : st.fbSize = fbW st * fbH st) :
    putImageStep st false drawable w h x y pixels
      = { st with framebuffer := (putImageWrite false st.framebuffer (fbW st) (fbH st)
            x y w h pixels (childClipOf st drawable)) } := by
  have hW1 : drawable ∈ st.childWindows ∨ drawable = kRootWindowId := by
    rcases hd with hd | hd
    · exact Or.inl (List.mem_of_mem_head? hd)
    · exact Or.inr hd.1
  have hTL : (¬ drawable ∈ st.childWindows ∧ drawable = kRootWindowId)
      ∨ ((drawable ∈ st.childWindows ∨ drawable = kRootWindowId)
        ∧ st.childWindows.head? = some drawable) := by
    rcases hd with hd | hd
    · exact Or.inr ⟨hW1, hd⟩
    · exact Or.inl ⟨hd.2, hd.1⟩
  have hisW : (drawable ∈ st.childWindows ∨ drawable = kRootWindowId)
      ∧ ¬ (¬ ((¬ drawable ∈ st.childWindows ∧ drawable = kRootWindowId)
          ∨ ((drawable ∈ st.childWindows ∨ drawable = kRootWindowId)
            ∧ st.childWindows.head? = some drawable))
        ∧ drawable ∈ st.unmappedWindows) :=
    ⟨hW1, fun hcon => hcon.1 hTL⟩
  simp only [putImageStep]
  rw [if_pos hdim]
  rw [if_pos ⟨hisW, hfbeq⟩]
  rw [if_neg (fun hcon => hcon.2 hTL), if_pos hisW]

/-- Reduction of the PutImage handler when the drawable is neither a
window nor the root but a registered pixmap: the write lands in the
pixmap's own buffer with no offset and no clip. -/
theorem putImageStep_pixmap (st : ServerState) (drawable : Nat)
    (w h x y : Int) (pixels : List Nat) (pd : PixmapData)
    (hdim : w > 0 ∧ h > 0 ∧ w ≤ 4096 ∧ h ≤ 4096 ∧ (pixels.length : Int) > 0)
    (hnw : drawable ∉ st.childWindows) (hnr : drawable ≠ kRootWindowId)
    (hpd : lookupA st.pixmaps drawable = some pd) :
    putImageStep st false drawable w h x y pixels
      = { st with pixmaps := (insertA st.pixmaps drawable
            { pd with pixels := (putImageWrite false pd.pixels pd.w pd.h
                x y w h pixels []) }) } := by
  have hnW1 : ¬ (drawable ∈ st.childWindows ∨ drawable = kRootWindowId) :=
    fun hcon => hcon.elim hnw hnr
  simp only [putImageStep]
  rw [if_pos hdim]
  rw [if_neg (fun hcon => hnW1 hcon.1.1)]
  rw [hpd]
  dsimp only
  have hClipCond : ¬ ((drawable ∈ st.childWindows ∨ drawable = kRootWindowId)
      ∧ ¬ (¬ ((¬ drawable ∈ st.childWindows) ∧ drawable = kRootWindowId
          ∨ (drawable ∈ st.childWindows ∨ drawable = kRootWindowId)
            ∧ st.childWindows.head? = some drawable)
        ∧ drawable ∈ st.unmappedWindows)) := fun hcon => hnW1 hcon.1
  rw [if_neg hClipCond]
  have hXYCond : ¬ (((drawable ∈ st.childWindows ∨ drawable = kRootWindowId)
      ∧ ¬ (¬ ((¬ drawable ∈ st.childWindows) ∧ drawable = kRootWindowId
          ∨ (drawable ∈ st.childWindows ∨ drawable = kRootWindowId)
            ∧ st.childWindows.head? = some drawable)
        ∧ drawable ∈ st.unmappedWindows))
      ∧ ¬ ((¬ drawable ∈ st.childWindows) ∧ drawable = kRootWindowId
          ∨ (drawable ∈ st.childWindows ∨ drawable = kRootWindowId)
            ∧ st.childWindows.head? = some drawable)) := fun hcon => hnW1 hcon.1.1
  rw [if_neg hXYCond]

/-- GetImage resolves any window id (with a nonempty framebuffer) to the
shadow framebuffer. -/
theorem getImageResolve_fb (st : ServerState) (drawable : Nat)
    (hwin : drawable ∈ st.childWindows ∨ drawable = kRootWindowId)
    (hfb : st.fbSize ≠ 0) :
    getImageResolve st drawable = some (st.framebuffer, fbW st, fbH st, true) := by
  simp only [getImageResolve]
  rw [if_pos ⟨hwin, hfb⟩]

/-- GetImage resolves a non-window drawable to its pixmap buffer. -/
theorem getImageResolve_pixmap (st : ServerState) (drawable : Nat) (pd : PixmapData)
    (hnw : drawable ∉ st.childWindows) (hnr : drawable ≠ kRootWindowId)
    (hpd : lookupA st.pixmaps drawable = some pd) :
    getImageResolve st drawable = some (pd.pixels, pd.w, pd.h, true) := by
  simp only [getImageResolve]
  rw [if_neg (fun hcon => hcon.1.elim hnw hnr)]
  rw [hpd]

/-- Core of the round trip: reading byte `j` of a region that was just
written by the LSB fast path returns the written byte, with the alpha
byte of each pixel forced to 0xFF. -/
theorem getImage_read_back (st : ServerState) (drawable : Nat)
    (buf : Int → Nat) (dW dH x y w h : Int) (pixels : List Nat) (clip : List ClipRect)
    (hres : getImageResolve st drawable =
      some (putImageWrite false buf dW dH x y w h pixels clip, dW, dH, true))
    (hw : 0 < w) (hh : 0 < h)
    (hx : 0 ≤ x) (hy : 0 ≤ y) (hxw : x + w ≤ dW) (hyh : y + h ≤ dH)
    (hlen : w * h * 4 ≤ (pixels.length : Int))
    (hbytes : ∀ b ∈ pixels, b < 256)
    (hclip : ∀ dx dy : Int, x ≤ dx → dx < x + w → y ≤ dy → dy < y + h →
      clippedAt clip dx dy = false)
    (j : Nat) (hj : (j : Int) < w * h * 4) :
    getImageByte st false drawable x y w h j
      = if j % 4 = 3 then 255 else byteAt pixels j := by
  simp only [getImageByte]
  rw [hres]
  dsimp only
  rw [if_pos ⟨hw, hh⟩]
  rw [if_pos ⟨⟨hx, hy, hxw, hyh⟩, rfl⟩]
  have hp0 : 0 ≤ (j : Int) / 4 := Int.ediv_nonneg (Int.ofNat_nonneg j) (by omega)
  have hpwh : (j : Int) / 4 < w * h := by
    rw [Int.ediv_lt_iff_lt_mul (by omega : (0 : Int) < 4)]
    omega
  have hr0 : 0 ≤ (j : Int) / 4 / w := Int.ediv_nonneg hp0 (le_of_lt hw)
  have hrh : (j : Int) / 4 / w < h := by
    rw [Int.ediv_lt_iff_lt_mul hw]
    calc (j : Int) / 4 < w * h := hpwh
    _ = h * w := mul_comm w h
  have hc0 : 0 ≤ (j : Int) / 4 % w := Int.emod_nonneg _ (by omega)
  have hcw : (j : Int) / 4 % w < w := Int.emod_lt_of_pos _ hw
  rw [putImageWrite_fullyCovered_read buf dW dH x y w h pixels clip
    hx hy hxw hyh hlen hclip ((j : Int) / 4 / w) ((j : Int) / 4 % w) hr0 hrh hc0 hcw]
  have hpc : (j : Int) / 4 / w * w + (j : Int) / 4 % w = (j : Int) / 4 := by
    rw [mul_comm]
    exact Int.ediv_add_emod _ w
  rw [hpc]
  have hbase : (((j : Int) / 4) * 4).toNat = j - j % 4 := by omega
  rw [hbase]
  simp only [leWordAt]
  obtain ⟨e0, e1, e2, e3⟩ := leWord_alpha_bytes
    (byteAt pixels (j - j % 4)) (byteAt pixels (j - j % 4 + 1))
    (byteAt pixels (j - j % 4 + 2)) (byteAt pixels (j - j % 4 + 3))
    (byteAt_lt pixels _ hbytes) (byteAt_lt pixels _ hbytes)
    (byteAt_lt pixels _ hbytes) (byteAt_lt pixels _ hbytes)
  have hk : j % 4 = 0 ∨ j % 4 = 1 ∨ j % 4 = 2 ∨ j % 4 = 3 := by omega
  rcases hk with hk | hk | hk | hk
  · rw [hk] at e0 ⊢
    have hjj : j - 0 = j := by omega
    rw [if_neg (by decide : ¬ (0 = 3)), e0, hjj]
  · rw [hk] at e1 ⊢
    have hjj : j - 1 + 1 = j := by omega
    rw [if_neg (by decide : ¬ (1 = 3)), e1, hjj]
  · rw [hk] at e2 ⊢
    have hjj : j - 2 + 2 = j := by omega
    rw [if_neg (by decide : ¬ (2 = 3)), e2, hjj]
  · rw [hk] at e3 ⊢
    rw [if_pos rfl]
    exact e3

/-- C1: pixel data written via PutImage in the client's LSB byte order to
the top-level window (or the bare root id, with a consistent framebuffer)
or to a pixmap, the region fully inside the destination buffer and not
overlapped by any mapped child clip rectangle, reads back via GetImage on
the same region byte-identically, except that the alpha byte (byte 3 of
each little-endian pixel) is forced to 0xFF. The original claim's MSB
byte order and mapped-child-window cases fail (see the counterexample):
the GetImage fast path copies the little-endian shadow buffer verbatim
for both byte orders, and GetImage never applies the ancestor offset that
PutImage applies for non-top-level windows. -/
theorem putImage_getImage_roundtrip
    (st : ServerState) (drawable : Nat) (w h x y : Int) (pixels : List Nat)
    (hw : 0 < w) (hh : 0 < h) (hw4 : w ≤ 4096) (hh4 : h ≤ 4096)
    (hlen : w * h * 4 ≤ (pixels.length : Int))
    (hbytes : ∀ b ∈ pixels, b < 256)
    (hcase :
      ((st.childWindows.head? = some drawable
          ∨ (drawable = kRootWindowId ∧ drawable ∉ st.childWindows))
        ∧ st.fbSize = fbW st * fbH st
        ∧ 0 ≤ x ∧ 0 ≤ y ∧ x + w ≤ fbW st ∧ y + h ≤ fbH st
        ∧ (∀ dx dy : Int, x ≤ dx → dx < x + w → y ≤ dy → dy < y + h →
            clippedAt (childClipOf st drawable) dx dy = false))
      ∨ (drawable ∉ st.childWindows ∧ drawable ≠ kRootWindowId
        ∧ (lookupA st.pixmaps drawable).isSome = true
        ∧ 0 ≤ x ∧ 0 ≤ y ∧ x + w ≤ pixmapW st drawable
        ∧ y + h ≤ pixmapH st drawable)) :
    ∀ j : Nat, (j : Int) < w * h * 4 →
      getImageByte (putImageStep st false drawable w h x y pixels) false drawable
        x y w h j = if j % 4 = 3 then 255 else byteAt pixels j := by
  intro j hj
  have hpdl : (pixels.length : Int) > 0 := by
    have hwh : (0 : Int) < w * h * 4 := by positivity
    omega
  have hdim : w > 0 ∧ h > 0 ∧ w ≤ 4096 ∧ h ≤ 4096 ∧ (pixels.length : Int) > 0 :=
    ⟨hw, hh, hw4, hh4, hpdl⟩
  rcases hcase with ⟨hd, hfbeq, hx, hy, hxw, hyh, hclip⟩
    | ⟨hnw, hnr, hps, hx, hy, hxw, hyh⟩
  · have hW1 : drawable ∈ st.childWindows ∨ drawable = kRootWindowId := by
      rcases hd with hd | hd
      · exact Or.inl (List.mem_of_mem_head? hd)
      · exact Or.inr hd.1
    have hfbW : 0 < fbW st := by omega
    have hfbH : 0 < fbH st := by omega
    have hfbne : st.fbSize ≠ 0 := by
      rw [hfbeq]
      exact ne_of_gt (mul_pos hfbW hfbH)
    rw [putImageStep_window st drawable w h x y pixels hdim hd hfbeq]
    exact getImage_read_back
      { st with framebuffer := (putImageWrite false st.framebuffer (fbW st) (fbH st)
          x y w h pixels (childClipOf st drawable)) }
      drawable st.framebuffer (fbW st) (fbH st) x y w h
      pixels (childClipOf st drawable)
      (getImageResolve_fb
        { st with framebuffer := (putImageWrite false st.framebuffer (fbW st) (fbH st)
            x y w h pixels (childClipOf st drawable)) }
        drawable hW1 hfbne)
      hw hh hx hy hxw hyh hlen hbytes hclip j hj
  · obtain ⟨pd, hpd⟩ := Option.isSome_iff_exists.mp hps
    have hpw : pixmapW st drawable = pd.w := by
      simp only [pixmapW, hpd]
    have hph : pixmapH st drawable = pd.h := by
      simp only [pixmapH, hpd]
    rw [hpw] at hxw
    rw [hph] at hyh
    rw [putImageStep_pixmap st drawable w h x y pixels pd hdim hnw hnr hpd]
    exact getImage_read_back
      { st with pixmaps := (insertA st.pixmaps drawable
          { pd with pixels := (putImageWrite false pd.pixels pd.w pd.h
              x y w h pixels []) }) }
      drawable pd.pixels pd.w pd.h x y w h pixels []
      (getImageResolve_pixmap
        { st with pixmaps := (insertA st.pixmaps drawable
            { pd with pixels := (putImageWrite false pd.pixels pd.w pd.h
                x y w h pixels []) }) }
        drawable
        { pd with pixels := (putImageWrite false pd.pixels pd.w pd.h
            x y w h pixels []) }
        hnw hnr
        (lookupA_insertA_self st.pixmaps drawable
          { pd with pixels := (putImageWrite false pd.pixels pd.w pd.h
              x y w h pixels []) }))
      hw hh hx hy hxw hyh hlen hbytes (fun dx dy _ _ _ _ => rfl) j hj

/-- One mapped top-level window (id 2) over a 1×1 framebuffer. -/
def c1stateTop : ServerState :=
  { initState with
    childWindows := [2]
    windowSizes := [(2, (1, 1))]
    windowPositions := [(2, ⟨0, 0, 1⟩)]
    pluginWidth := 1
    pluginHeight := 1
    originalChildW := 1
    originalChildH := 1
    width := 1
    height := 1
    fbSize := 1 }

/-- Window 3 mapped at offset (1,1) inside top-level window 2 over a 2×2
framebuffer. -/
def c1stateChild : ServerState :=
  { initState with
    childWindows := [2, 3]
    windowSizes := [(2, (2, 2)), (3, (1, 1))]
    windowPositions := [(2, ⟨0, 0, 1⟩), (3, ⟨1, 1, 2⟩)]
    pluginWidth := 2
    pluginHeight := 2
    originalChildW := 2
    originalChildH := 2
    width := 2
    height := 2
    fbSize := 4 }

/-- C1, two failing cases of the unrestricted round-trip claim. (a) MSB
byte order: a 1×1 PutImage of bytes [1,2,3,4] to the top-level window
read back via GetImage returns 3 as byte 1, not the written 2 — the
GetImage fast path copies the little-endian shadow buffer verbatim for
both byte orders. (b) Mapped child window: a 1×1 PutImage of bytes
[9,9,9,9] to child window 3 (offset (1,1) in its parent) read back via
GetImage on the same window returns the background byte 32, not 9 —
PutImage applies the ancestor offset but GetImage reads from the region's
unoffset framebuffer coordinates. -/
theorem putImage_getImage_roundtrip_counterexample :
    getImageByte (putImageStep c1stateTop true 2 1 1 0 0 [1, 2, 3, 4]) true 2
        0 0 1 1 1 ≠ byteAt [1, 2, 3, 4] 1
    ∧ getImageByte (putImageStep c1stateChild false 3 1 1 0 0 [9, 9, 9, 9]) false 3
        0 0 1 1 0 ≠ byteAt [9, 9, 9, 9] 0 := by
  decide

/-- C1 witness: the round-trip theorem applied to a 1×1 LSB PutImage of
bytes [1,2,3,4] to the top-level window of `c1stateTop`; byte 1 of the
region reads back as the written byte 2. -/
theorem putImage_getImage_roundtrip_witness :
    getImageByte (putImageStep c1stateTop false 2 1 1 0 0 [1, 2, 3, 4]) false 2
      0 0 1 1 1 = if 1 % 4 = 3 then 255 else byteAt [1, 2, 3, 4] 1 :=
  putImage_getImage_roundtrip c1stateTop 2 1 1 0 0 [1, 2, 3, 4]
    (by decide) (by decide) (by decide) (by decide) (by decide) (by decide)
    (Or.inl ⟨by decide, by decide, by decide, by decide, by decide, by decide,
      fun dx dy _ _ _ _ => rfl⟩)
    1 (by decide)

end GuitarRackCraft
